import Mathlib

/-!
Verification of the tariff-driven scheduling and time-series engine of the
Agility repository (`src/mapped/solis.mjs`), as a shallow embedding in Lean.

Conventions used throughout:
* The hierarchical persistent store (glsdb) is an external collaborator; a
  sub-tree keyed by integers is modelled as an association list
  `List (ℕ × α)` kept in ascending key order (the key-tree's intrinsic
  order).  `lookupTree` is `node.$(k)`, `setTree` is assignment to
  `node.$(k)`, `childBefore`/`childAfter` are the ordered neighbour lookups.
* JavaScript numbers that can be `undefined` or `NaN` are modelled as
  `Option ℚ` (`none` propagates through arithmetic exactly as `NaN` does,
  and a read of a missing node yields `none`).
* The calendar/date collaborator (`agility.date`) is external; its results
  are passed in as explicit function parameters.
* `Number.prototype.toFixed(2)` followed by unary `+` is modelled on ℚ as
  rounding to the nearest multiple of 1/100 (half away from zero on the
  positive values used here).
-/

namespace Agility

/-! ### The ordered key-tree model of a glsdb sub-tree -/

/-! ### Snapshots and the ingestion operation `update` (solis.mjs lines 564-595) -/

/-- JavaScript numeric value that may be `undefined`/`NaN`: `none` is the
absorbing undefined/NaN case, `some q` a finite number. -/
abbrev JSVal := Option ℚ

/-- Subtraction on JS values: `NaN`/`undefined` propagates. -/
def jsSub : JSVal → JSVal → JSVal
  | some a, some b => some (a - b)
  | _, _ => none

/-- Model of `+(x).toFixed(2)` on a rational: round to 2 decimal places. -/
def round2 (q : ℚ) : ℚ := ((⌊q * 100 + 1 / 2⌋ : ℤ) : ℚ) / 100

/-- Model of `+(x).toFixed(2)` on a JS value (`NaN.toFixed` gives `"NaN"`, `+"NaN"` is `NaN`). -/
def jsRound2 : JSVal → JSVal := Option.map round2

/-- A rational is an exact 2-decimal value (representable as k/100). -/
def isCenti (q : ℚ) : Prop := (q * 100).den = 1

instance (q : ℚ) : Decidable (isCenti q) := by unfold isCenti; infer_instance

/-- Exact child lookup `node.$(k)` in a key-tree. -/
def lookupTree {α : Type} (t : List (ℕ × α)) (k : ℕ) : Option α :=
  (t.find? (fun p => p.1 == k)).map (·.2)

/-- Assignment `node.$(k).document = v`: replaces the value at `k`, or
inserts it at its ordered position (the key-tree keeps keys ascending). -/
def setTree {α : Type} : List (ℕ × α) → ℕ → α → List (ℕ × α)
  | [], k, v => [(k, v)]
  | (k0, v0) :: rest, k, v =>
    if k < k0 then (k, v) :: (k0, v0) :: rest
    else if k = k0 then (k, v) :: rest
    else (k0, v0) :: setTree rest k v

/-- Lookup `node.childBefore(k)`: last child with key strictly below `k`. -/
def childBefore {α : Type} (t : List (ℕ × α)) (k : ℕ) : Option (ℕ × α) :=
  (t.filter (fun p => p.1 < k)).getLast?

/-- Lookup `node.childAfter(k)`: first child with key strictly above `k`. -/
def childAfter {α : Type} (t : List (ℕ × α)) (k : ℕ) : Option (ℕ × α) :=
  (t.filter (fun p => k < p.1)).head?

/-- One stored half-hour telemetry record, as written by `update`
(solis.mjs lines 578-590).  The source field `at` is named `atText` here
(`at` is reserved in Lean). -/
structure Snapshot where
  atText : String
  timeText : String
  pvOutputNow : ℚ
  pvOutputTotal : ℚ
  houseLoadNow : ℚ
  houseLoadTotal : ℚ
  gridImportNow : ℚ
  gridImportTotal : ℚ
  gridExportTotal : ℚ
  batteryLevel : ℚ
  batteryChargePower : ℚ
deriving DecidableEq, Repr

/-- A day's sub-tree `solis/{dateIndex}`: timeIndex-keyed snapshots. -/
abbrev Day := List (ℕ × Snapshot)

/-- The whole `solis` data document: dateIndex-keyed day sub-trees. -/
abbrev Store := List (ℕ × Day)

/-- One raw vendor telemetry sample from the `inverterDay` API response
(the fields `update` reads, already coerced to numbers). -/
structure Sample where
  dataTimestamp : ℕ
  pac : ℚ
  eToday : ℚ
  familyLoadPower : ℚ
  homeLoadTodayEnergy : ℚ
  pSum : ℚ
  gridPurchasedTodayEnergy : ℚ
  gridSellTodayEnergy : ℚ
  batteryCapacitySoc : ℚ
  batteryPower : ℚ
deriving DecidableEq, Repr

/-- The pieces of the external date collaborator's result that `update`
uses to render text fields (`this.date.at(+time)`). -/
structure DatePieces where
  dayText : String
  monthText : String
  year : String
  timeText : String
deriving DecidableEq, Repr

/-- The snapshot document built by `update` (solis.mjs lines 578-590). -/
def mkSnapshot (d : DatePieces) (s : Sample) : Snapshot :=
  { atText := d.dayText ++ "/" ++ d.monthText ++ "/" ++ d.year ++ ": " ++ d.timeText
    timeText := d.timeText
    pvOutputNow := s.pac / 1000
    pvOutputTotal := s.eToday
    houseLoadNow := s.familyLoadPower / 1000
    houseLoadTotal := s.homeLoadTodayEnergy
    gridImportNow := (0 - s.pSum) / 1000
    gridImportTotal := s.gridPurchasedTodayEnergy
    gridExportTotal := s.gridSellTodayEnergy
    batteryLevel := s.batteryCapacitySoc
    batteryChargePower := s.batteryPower }

/-- The per-sample body of `update`'s loop (solis.mjs lines 573-592): write
`mkSnapshot` at key `dataTimestamp` only when no record exists there and
`+snapshot.homeLoadTodayEnergy !== 0`. -/
def updateDay (dateAt : ℕ → DatePieces) (day : Day) : List Sample → Day
  | [] => day
  | s :: rest =>
    let day' :=
      if (lookupTree day s.dataTimestamp).isNone ∧ s.homeLoadTodayEnergy ≠ 0 then
        setTree day s.dataTimestamp (mkSnapshot (dateAt s.dataTimestamp) s)
      else day
    updateDay dateAt day' rest

/-- Result object returned by `update`. -/
inductive UpdateResult where
  | ok (msg : String)
  | error (msg : String)
deriving DecidableEq, Repr

/-- The ingestion operation `update` (solis.mjs lines 564-595).  The
`inverterDayAPI` call result is a parameter: either an error object or the
day's sample list; `dateIndex` is `this.date.atMidnight(offset).timeIndex`. -/
def update (dateAt : ℕ → DatePieces) (store : Store) (dateIndex : ℕ)
    (resp : Except String (List Sample)) : Store × UpdateResult :=
  match resp with
  | .error e => (store, .error e)
  | .ok samples =>
    (setTree store dateIndex
      (updateDay dateAt ((lookupTree store dateIndex).getD []) samples),
     .ok "Solis Data updated successfully")

/-- The day sub-tree of a store at `dateIndex` (missing day reads as empty). -/
def dayAt (store : Store) (dateIndex : ℕ) : Day :=
  (lookupTree store dateIndex).getD []


/-! ### `powerAt` (solis.mjs lines 1017-1063) and `getHistory` (lines 197-232) -/

/-- The object `powerAt` returns.  Fields are `JSVal` because the
exact-match branch (solis.mjs line 1026) reads the misspelled child
`gridimportTotal`, which was never written, so that field comes back as
undefined there (`none`); the neighbour branch (line 1060) reads the
correctly spelled `gridImportTotal`. -/
structure PowerRec where
  batteryLevel : JSVal
  houseLoadTotal : JSVal
  gridExportTotal : JSVal
  gridImportTotal : JSVal
  pvOutputTotal : JSVal
deriving DecidableEq, Repr

/-- All five reads against a missing node (`dateNode.$(undefined)`). -/
def undefinedPowerRec : PowerRec := ⟨none, none, none, none, none⟩

/-- JavaScript falsiness of a possibly-undefined numeric index
(`!x` is true for `undefined` and for `0`). -/
def jsFalsyIdx : Option ℕ → Bool
  | none => true
  | some 0 => true
  | some _ => false

/-- The neighbour choice of `powerAt` (solis.mjs lines 1036-1054),
mirroring the source exactly, including the JavaScript falsiness checks
`!beforeIndex` / `!afterIndex` (undefined or 0) and the equidistant
tie-break to the earlier sample. -/
def chooseNeighbour (timeIndex : ℕ) (beforeIdx afterIdx : Option ℕ) : Option ℕ :=
  if jsFalsyIdx beforeIdx then afterIdx         -- if (!beforeIndex)
  else if jsFalsyIdx afterIdx then beforeIdx    -- else if (!afterIndex)
  else
    let b := beforeIdx.getD 0
    let a := afterIdx.getD 0
    let diff1 := timeIndex - b
    let diff2 := a - timeIndex
    if diff1 < diff2 then beforeIdx
    else if diff2 < diff1 then afterIdx
    else beforeIdx            -- equidistant: earlier sample wins

/-- Body of `powerAt` for an existing day sub-tree (solis.mjs lines
1020-1062). -/
def powerAtDay (day : Day) (timeIndex : ℕ) : PowerRec :=
  match lookupTree day timeIndex with
  | some s =>
    -- exact match (lines 1021-1029); `gridimportTotal` (sic) is undefined
    ⟨some s.batteryLevel, some s.houseLoadTotal, some s.gridExportTotal,
     none, some s.pvOutputTotal⟩
  | none =>
    let beforeIdx := (childBefore day timeIndex).map (·.1)
    let afterIdx := (childAfter day timeIndex).map (·.1)
    match chooseNeighbour timeIndex beforeIdx afterIdx with
    | some ti =>
      match lookupTree day ti with
      | some s =>
        ⟨some s.batteryLevel, some s.houseLoadTotal, some s.gridExportTotal,
         some s.gridImportTotal, some s.pvOutputTotal⟩
      | none => undefinedPowerRec
    | none => undefinedPowerRec

/-- Operation `powerAt(dateIndex, timeIndex)` (solis.mjs line 1017): undefined when
the day sub-tree does not exist. -/
def powerAt (store : Store) (dateIndex timeIndex : ℕ) : Option PowerRec :=
  (lookupTree store dateIndex).map (fun day => powerAtDay day timeIndex)

/-- The four cumulative fields iterated by `getHistory`'s `for name in sum`
loop (solis.mjs lines 204-210). -/
inductive CumField where
  | house
  | gexp
  | gimp
  | pv
deriving DecidableEq, Repr

/-- Field projection of a `PowerRec`. -/
def PowerRec.cum (r : PowerRec) : CumField → JSVal
  | .house => r.houseLoadTotal
  | .gexp => r.gridExportTotal
  | .gimp => r.gridImportTotal
  | .pv => r.pvOutputTotal

/-- Field projection of a stored `Snapshot`. -/
def Snapshot.cum (s : Snapshot) : CumField → ℚ
  | .house => s.houseLoadTotal
  | .gexp => s.gridExportTotal
  | .gimp => s.gridImportTotal
  | .pv => s.pvOutputTotal

/-- One per-slot record returned by `getHistory`: the cumulative fields
have been replaced by 2-decimal deltas against the running sum. -/
structure HistEntry where
  timeText : String
  price : Option ℚ
  batteryLevel : JSVal
  houseLoadTotal : JSVal
  gridExportTotal : JSVal
  gridImportTotal : JSVal
  pvOutputTotal : JSVal
deriving DecidableEq, Repr

/-- Field projection of a `HistEntry`. -/
def HistEntry.cum (e : HistEntry) : CumField → JSVal
  | .house => e.houseLoadTotal
  | .gexp => e.gridExportTotal
  | .gimp => e.gridImportTotal
  | .pv => e.pvOutputTotal

/-- The `sum` object of `getHistory` (solis.mjs lines 204-210), carried as
JS values because a NaN can enter it (see `PowerRec`). -/
structure Sums where
  houseLoadTotal : JSVal
  gridExportTotal : JSVal
  gridImportTotal : JSVal
  pvOutputTotal : JSVal
deriving DecidableEq, Repr

/-- Field projection of `Sums`. -/
def Sums.cum (s : Sums) : CumField → JSVal
  | .house => s.houseLoadTotal
  | .gexp => s.gridExportTotal
  | .gimp => s.gridImportTotal
  | .pv => s.pvOutputTotal

/-- Initial `sum = {houseLoadTotal: 0, ...}` of `getHistory` (solis.mjs lines 204-210). -/
def initSums : Sums := ⟨some 0, some 0, some 0, some 0⟩

/-- The external tariff store `octopusAgile.byTime`:
`(dateIndex, timeIndex) → price`. -/
abbrev PriceStore := List ((ℕ × ℕ) × ℚ)

/-- Price lookup of `getHistory` (solis.mjs lines 218-223); `none` is the
`'not available'` sentinel. -/
def priceAt (prices : PriceStore) (dateIndex timeIndex : ℕ) : Option ℚ :=
  (prices.find? (fun p => p.1.1 == dateIndex && p.1.2 == timeIndex)).map (·.2)

/-- The loop body of `getHistory` (solis.mjs lines 212-230) over the
boundary list: for each boundary, look up `powerAt`, attach time text and
price, replace each cumulative field by `+(value - sum[name]).toFixed(2)`
and store the raw value back into `sum`. -/
def histLoop (day : Day) (prices : PriceStore) (timeTextAt : ℕ → String)
    (dateIndex : ℕ) : List ℕ → Sums → List HistEntry
  | [], _ => []
  | ti :: rest, s =>
    let data := powerAtDay day ti
    let entry : HistEntry :=
      { timeText := timeTextAt ti
        price := priceAt prices dateIndex ti
        batteryLevel := data.batteryLevel
        houseLoadTotal := jsRound2 (jsSub data.houseLoadTotal s.houseLoadTotal)
        gridExportTotal := jsRound2 (jsSub data.gridExportTotal s.gridExportTotal)
        gridImportTotal := jsRound2 (jsSub data.gridImportTotal s.gridImportTotal)
        pvOutputTotal := jsRound2 (jsSub data.pvOutputTotal s.pvOutputTotal) }
    let s2 : Sums := ⟨data.houseLoadTotal, data.gridExportTotal,
                      data.gridImportTotal, data.pvOutputTotal⟩
    entry :: histLoop day prices timeTextAt dateIndex rest s2

/-- The half-hour boundaries visited by `getHistory`'s loop (solis.mjs
lines 212-214): `timeIndex += 1800000` for up to 47 iterations, breaking at
the first boundary beyond `now`. -/
def boundaries (dateIndex now : ℕ) : List ℕ :=
  ((List.range 47).map (fun i => dateIndex + 1800000 * (i + 1))).takeWhile
    (fun ti => ti ≤ now)

/-- Operation `getHistory(dateIndex)` (solis.mjs lines 197-232); `none` models the
`return false` for a missing day sub-tree. -/
def getHistory (store : Store) (prices : PriceStore) (timeTextAt : ℕ → String)
    (dateIndex now : ℕ) : Option (List HistEntry) :=
  (lookupTree store dateIndex).map (fun day =>
    histLoop day prices timeTextAt dateIndex (boundaries dateIndex now) initSums)

/-- The exact per-slot delta sequence of a cumulative value sequence `cs`
against a starting baseline `s`. -/
def deltaList : List ℚ → ℚ → List ℚ
  | [], _ => []
  | c :: cs, s => (c - s) :: deltaList cs c

/-- Concrete snapshot with cumulative house load 0.006 kWh (all other
fields inert). -/
def snapA : Snapshot :=
  { atText := "", timeText := "00:30", pvOutputNow := 0, pvOutputTotal := 0
    houseLoadNow := 0, houseLoadTotal := 6/1000, gridImportNow := 0
    gridImportTotal := 0, gridExportTotal := 0, batteryLevel := 50
    batteryChargePower := 0 }

/-- Concrete snapshot with cumulative house load 0.012 kWh. -/
def snapB : Snapshot := { snapA with timeText := "01:00", houseLoadTotal := 12/1000 }

/-- A concrete day with samples exactly on the first two half-hour
boundaries. -/
def dayCE : Day := [(1800000, snapA), (3600000, snapB)]

/-- Store holding only `dayCE` at dateIndex 0. -/
def storeCE : Store := [(0, dayCE)]

/-- Concrete snapshot with integer (hence exact 2-decimal) cumulative
values, for the C2 witness. -/
def snapW1 : Snapshot := { snapA with houseLoadTotal := 1 }

/-- Operation `cleardown()` (solis.mjs lines 1131-1142): iterate the day sub-trees in
reverse key order with a counter, deleting every sub-tree once the counter
exceeds `noOfDaysToKeep = movingAveragePeriod + 1`; equivalently the first
`noOfDaysToKeep` entries of the reversed (descending) day list survive. -/
def cleardown (store : Store) (movingAveragePeriod : ℕ) : Store :=
  let noOfDaysToKeep := movingAveragePeriod + 1
  ((store.reverse).take noOfDaysToKeep).reverse

/-- Nine day sub-trees, for exercising retention. -/
def storeNine : Store :=
  [(1, []), (2, []), (3, []), (4, []), (5, []), (6, []), (7, []), (8, []), (9, [])]

/-- Concrete snapshot carrying a nonzero cumulative grid import. -/
def snapG : Snapshot := { snapA with gridImportTotal := 5 }

/-- A day holding `snapG` exactly at timeIndex 1800000. -/
def dayG : Day := [(1800000, snapG)]

/-! ### Legacy settings-string rewrites (solis.mjs lines 453-496) -/

/-- Rewrite `chargeTimeString` (solis.mjs lines 453-462).  Strings are modelled as
`List Char`; `split(',')` is `List.splitOn ','`, `join(',')` is
`List.intercalate [',']`, and in-range JavaScript array assignment is
`List.set`.  The numeric values stored into positions 0 and 1 are passed
as their decimal renderings. -/
def chargeTimeString (chargeCurrent : List Char)
    (currentSetting fromTimeText toTimeText : List Char) : List Char :=
  let pcs := currentSetting.splitOn ','
  let pcs := pcs.set 0 chargeCurrent
  let pcs := pcs.set 1 ['0']
  let pcs := pcs.set 2 (fromTimeText ++ ['-'] ++ toTimeText)
  let pcs := pcs.set 3 "00:00-00:00".toList
  let pcs := pcs.set 6 "00:00-00:00".toList
  let pcs := pcs.set 10 "00:00-00:00".toList
  List.intercalate [','] pcs

/-- Rewrite `dischargeTimeString` (solis.mjs lines 464-473). -/
def dischargeTimeString (dischargeCurrent : List Char)
    (currentSetting fromTimeText toTimeText : List Char) : List Char :=
  let pcs := currentSetting.splitOn ','
  let pcs := pcs.set 0 ['0']
  let pcs := pcs.set 1 dischargeCurrent
  let pcs := pcs.set 2 "00:00-00:00".toList
  let pcs := pcs.set 3 (fromTimeText ++ ['-'] ++ toTimeText)
  let pcs := pcs.set 6 "00:00-00:00".toList
  let pcs := pcs.set 10 "00:00-00:00".toList
  List.intercalate [','] pcs

/-- Rewrite `gridOnlyTimeString` (solis.mjs lines 475-484). -/
def gridOnlyTimeString (currentSetting fromTimeText toTimeText : List Char) : List Char :=
  let pcs := currentSetting.splitOn ','
  let pcs := pcs.set 0 ['0']
  let pcs := pcs.set 1 ['0']
  let pcs := pcs.set 2 "00:00-00:00".toList
  let pcs := pcs.set 3 (fromTimeText ++ ['-'] ++ toTimeText)
  let pcs := pcs.set 6 "00:00-00:00".toList
  let pcs := pcs.set 10 "00:00-00:00".toList
  List.intercalate [','] pcs

/-- Rewrite `resetTimeString` (solis.mjs lines 487-496). -/
def resetTimeString (currentSetting : List Char) : List Char :=
  let pcs := currentSetting.splitOn ','
  let pcs := pcs.set 0 ['0']
  let pcs := pcs.set 1 ['0']
  let pcs := pcs.set 2 "00:00-00:00".toList
  let pcs := pcs.set 3 "00:00-00:00".toList
  let pcs := pcs.set 6 "00:00-00:00".toList
  let pcs := pcs.set 10 "00:00-00:00".toList
  List.intercalate [','] pcs

/-! ### Inverter control operations (solis.mjs lines 408-562, 634-850) -/

/-- Shape of a `controlAPI` response as the callers discriminate it:
an error result (`resp.error`), a well-formed response lacking `data`
(`!resp.data`), or a response carrying `data`. -/
inductive ApiResp where
  | err (msg : String)
  | okNoData
  | okData
deriving DecidableEq, Repr

/-- A control operation's result object: `{status: ...}` or `{error: ...}`. -/
inductive OpResult where
  | status (msg : String)
  | error (msg : String)
deriving DecidableEq, Repr

/-- Outcome of a JavaScript async function: a settled value or a rejected
promise (a thrown error). -/
inductive JsOutcome where
  | value (r : OpResult)
  | thrown (msg : String)
deriving DecidableEq, Repr

/-- The collaborator results an inverter-control call depends on: the
enable flags (`this.agility.chargingEnabled` / `dischargingEnabled`), the
cached firmware classification (`getFirmwareVersion()`), the configured
currents (decimal renderings), the `atReadAPI()` outcome (an error result
or the settings string `resp.data.msg`), and the `controlAPI` outcome per
command id (the submitted value does not alter which discrimination the
callers perform). -/
structure ControlEnv where
  chargingEnabled : Bool
  dischargingEnabled : Bool
  firmwareVersion : String
  chargeCurrent : List Char
  dischargeCurrent : List Char
  atRead : Except String (List Char)
  controlResp : ℕ → ApiResp

/-- Operation `post4B00Charge` (solis.mjs lines 498-529): three `controlAPI` writes
(5948 current, 5928 SOC, 5946 window), each propagating an error result or
converting a missing `data` into a tagged error. -/
def post4B00Charge (env : ControlEnv) (fromTimeText toTimeText : String) : OpResult :=
  match env.controlResp 5948 with
  | .err e => .error e
  | .okNoData => .error "Solis charge current setting 5948 API failed"
  | .okData =>
    match env.controlResp 5928 with
    | .err e => .error e
    | .okNoData => .error "Solis charge SOC setting 5928 API failed"
    | .okData =>
      match env.controlResp 5946 with
      | .err e => .error e
      | .okNoData => .error "Solis charge setting 5946 API failed"
      | .okData =>
        .status ("Inverter successfully set to charge between "
          ++ fromTimeText ++ " and " ++ toTimeText)

/-- Operation `post4B00Discharge` (solis.mjs lines 531-562): writes 5967, 5965, 5964. -/
def post4B00Discharge (env : ControlEnv) (fromTimeText toTimeText : String) : OpResult :=
  match env.controlResp 5967 with
  | .err e => .error e
  | .okNoData => .error "Solis discharge current setting 5967 API failed"
  | .okData =>
    match env.controlResp 5965 with
    | .err e => .error e
    | .okNoData => .error "Solis discharge SOC setting 5965 API failed"
    | .okData =>
      match env.controlResp 5964 with
      | .err e => .error e
      | .okNoData => .error "Solis discharge setting 5964 API failed"
      | .okData =>
        .status ("Inverter successfully set to discharge between "
          ++ fromTimeText ++ " and " ++ toTimeText)

/-- Result of `chargeAPI` (solis.mjs lines 418-429): `controlAPI(4643, ...)`,
propagating errors and tagging a missing `data`. -/
def chargeAPIres (env : ControlEnv) : Except String Unit :=
  match env.controlResp 4643 with
  | .err e => .error e
  | .okNoData => .error "Solis charge API failed"
  | .okData => .ok ()

/-- Result of `dischargeAPI` (solis.mjs lines 431-442). -/
def dischargeAPIres (env : ControlEnv) : Except String Unit :=
  match env.controlResp 4643 with
  | .err e => .error e
  | .okNoData => .error "Solis discharge API failed"
  | .okData => .ok ()

/-- The date collaborator's result object, restricted to the fields the
control operations read. -/
structure DateInfo where
  timeIndex : ℕ
  dateIndex : ℕ
  timeText : String
deriving DecidableEq, Repr

/-- Operation `inverterCharge(override)` (solis.mjs lines 653-682): enable-flag gate,
then the firmware-dialect dispatch.  `fromD` is `date.now()`, `toD` is
`date.at(fromD.slotEndTimeIndex)`.  The charge-history write
(`startNewChargeHistoryRecord`) touches only the history sub-tree and is
not part of the returned result. -/
def inverterCharge (env : ControlEnv) (fromD toD : DateInfo) (override : Bool) : OpResult :=
  if !override && !env.chargingEnabled then .status "Inverter Charge task ignored"
  else if env.firmwareVersion = "post-4B00" then
    post4B00Charge env fromD.timeText toD.timeText
  else
    match env.atRead with
    | .error e => .error e
    | .ok msg =>
      let _chargeString := chargeTimeString env.chargeCurrent msg
        fromD.timeText.toList toD.timeText.toList
      match chargeAPIres env with
      | .error e => .error e
      | .ok _ =>
        .status ("Inverter set to charge between " ++ fromD.timeText
          ++ " and " ++ toD.timeText)

/-- Operation `inverterDischarge(override)` (solis.mjs lines 707-736). -/
def inverterDischarge (env : ControlEnv) (fromD toD : DateInfo) (override : Bool) : OpResult :=
  if !override && !env.dischargingEnabled then .status "Inverter Discharge task ignored"
  else if env.firmwareVersion = "post-4B00" then
    post4B00Discharge env fromD.timeText toD.timeText
  else
    match env.atRead with
    | .error e => .error e
    | .ok msg =>
      let _dischargeString := dischargeTimeString env.dischargeCurrent msg
        fromD.timeText.toList toD.timeText.toList
      match dischargeAPIres env with
      | .error e => .error e
      | .ok _ =>
        .status ("Inverter set to discharge between " ++ fromD.timeText
          ++ " and " ++ toD.timeText)

/-- Operation `inverterGridOnly(override)` (solis.mjs lines 762-790): gated by the
charging flag; issues the discharge dialect with zero current. -/
def inverterGridOnly (env : ControlEnv) (fromD toD : DateInfo) (override : Bool) : OpResult :=
  if !override && !env.chargingEnabled then .status "Inverter Grid Only task ignored"
  else if env.firmwareVersion = "post-4B00" then
    post4B00Discharge env fromD.timeText toD.timeText
  else
    match env.atRead with
    | .error e => .error e
    | .ok msg =>
      let _gridString := gridOnlyTimeString msg
        fromD.timeText.toList toD.timeText.toList
      match dischargeAPIres env with
      | .error e => .error e
      | .ok _ =>
        .status ("Inverter set to only use grid power between " ++ fromD.timeText
          ++ " and " ++ toD.timeText)

/-- Operation `inverterResetNow(override)` (solis.mjs lines 816-839).  Note the
disabled-path result is an error object, unlike the other gates. -/
def inverterResetNow (env : ControlEnv) (override : Bool) : OpResult :=
  if !override && !env.chargingEnabled then
    .error "Charging logic is currently disabled, so no reset command sent"
  else if env.firmwareVersion = "post-4B00" then
    post4B00Charge env "00:00" "00:00"
  else
    match env.atRead with
    | .error e => .error e
    | .ok msg =>
      let _resetString := resetTimeString msg
      match chargeAPIres env with
      | .error e => .error e
      | .ok _ => .status "Inverter reset successfully"

/-- Operation `inverterReset()` (solis.mjs lines 841-850): only when
`date.now().timeText === '00:00'` is `inverterResetNow()` invoked (with no
argument, so without override); otherwise the remote is untouched. -/
def inverterReset (env : ControlEnv) (now : DateInfo) : OpResult :=
  if now.timeText = "00:00" then inverterResetNow env false
  else .status "Inverter reset only done at midnight"

/-- Operation `inverterDischargeBetween(fromTimeText, toTimeText)` (solis.mjs lines
738-759).  In the post-4B00 branch the source (line 743) calls
`this.post4B00Discharge(fromD.timeText, toD.timeText)`, but no `fromD` or
`toD` is declared anywhere in this function's scope (its parameters are
`fromTimeText`/`toTimeText`; contrast `inverterChargeBetween`, line 689),
so evaluating `fromD` throws a `ReferenceError` and the returned promise
rejects. -/
def inverterDischargeBetween (env : ControlEnv)
    (fromTimeText toTimeText : String) : JsOutcome :=
  if env.firmwareVersion = "post-4B00" then
    .thrown "ReferenceError: fromD is not defined"
  else
    match env.atRead with
    | .error e => .value (.error e)
    | .ok msg =>
      let _dischargeString := dischargeTimeString env.dischargeCurrent msg
        fromTimeText.toList toTimeText.toList
      match dischargeAPIres env with
      | .error e => .value (.error e)
      | .ok _ =>
        .value (.status ("Inverter set to discharge between " ++ fromTimeText
          ++ " and " ++ toTimeText))

/-- Two-digit zero-padded decimal rendering. -/
def pad2 (n : ℕ) : String := if n < 10 then "0" ++ toString n else toString n

/-- The date collaborator's `timeText` rendering of a wall-clock time
`h:m`.  Modelled from the spec: the calendar utility (excluded from the
core) yields `timeText` as the `HH:MM` rendering of the time of day. -/
def mkTimeText (h m : ℕ) : String := pad2 h ++ ":" ++ pad2 m

/-- A concrete control environment: flags on, legacy firmware, all remote
calls succeeding. -/
def envOk : ControlEnv :=
  { chargingEnabled := true, dischargingEnabled := true
    firmwareVersion := "pre-4B00", chargeCurrent := ['5', '0']
    dischargeCurrent := ['5', '0'], atRead := .ok "50,50,00:00-00:00,00:00-00:00,a,b,00:00-00:00,c,d,e,00:00-00:00".toList
    controlResp := fun _ => .okData }

/-- Environment `envOk` with both enable flags off. -/
def envOff : ControlEnv := { envOk with chargingEnabled := false, dischargingEnabled := false }

/-- Environment `envOk` with only charging disabled (discharging stays
enabled). -/
def envChargeOff : ControlEnv := { envOk with chargingEnabled := false }

/-- Environment `envOk` with only discharging disabled (charging stays
enabled). -/
def envDischargeOff : ControlEnv := { envOk with dischargingEnabled := false }

/-- Environment `envOk` on the post-4B00 dialect. -/
def envPost : ControlEnv := { envOk with firmwareVersion := "post-4B00" }

/-! ### Multi-day averaging (solis.mjs lines 863-886, 926-1015) -/

/-- The slice of the date collaborator the averaging pipeline uses:
`date.at(timeIndex)` (its `timeText` and `dateIndex`),
`date.atMidnight(offset).timeIndex` and
`date.atTime(timeText, dateIndex).timeIndex`. -/
structure DateUtil where
  atAbs : ℕ → DateInfo
  atMidnightTI : ℤ → ℕ
  atTimeTI : String → ℕ → ℕ

/-- Operation `getDataAt(timeText, offset)` (solis.mjs lines 863-886): exact record
at the resolved timeIndex, else the record after, else the record before,
else undefined. -/
def getDataAt (du : DateUtil) (store : Store) (timeText : String)
    (offset : ℤ) : Option Snapshot :=
  let dateIndex := du.atMidnightTI offset
  let timeIndex := du.atTimeTI timeText dateIndex
  let day := dayAt store dateIndex
  match lookupTree day timeIndex with
  | some s => some s
  | none =>
    match childAfter day timeIndex with
    | some p => some p.2
    | none =>
      match childBefore day timeIndex with
      | some p => some p.2
      | none => none

/-- The `{load, pv}` object returned by the averaging operations. -/
structure Power where
  load : ℚ
  pv : ℚ
deriving DecidableEq, Repr

/-- The day loop of `averagePowerBetween` (solis.mjs lines 990-1007):
iterate `count` historical days at offsets −1, −2, …, accumulating the
end-minus-start cumulative load and pv for each; reading a field of an
undefined `getDataAt` result throws, modelled as an error outcome. -/
def sumDays (du : DateUtil) (store : Store) (fromT toT : String) :
    ℕ → Except String (ℚ × ℚ)
  | 0 => .ok (0, 0)
  | k + 1 =>
    match sumDays du store fromT toT k with
    | .error e => .error e
    | .ok (tl, tp) =>
      match getDataAt du store fromT (-(k + 1 : ℤ)) with
      | none => .error "TypeError: Cannot read properties of undefined"
      | some a =>
        match getDataAt du store toT (-(k + 1 : ℤ)) with
        | none => .error "TypeError: Cannot read properties of undefined"
        | some b =>
          .ok (tl + (b.houseLoadTotal - a.houseLoadTotal),
               tp + (b.pvOutputTotal - a.pvOutputTotal))

/-- Operation `averagePowerBetween(from, to)` (solis.mjs lines 960-1015): defaults
for falsy arguments, zero result when the store is missing or has no
second-to-last day (or its key is falsy), otherwise the per-day loop over
all days except the most recent (the day count is the length of that
iteration), divided by the day count. -/
def averagePowerBetween (du : DateUtil) (store : Store)
    (fromT toT : String) : Except String Power :=
  let fromT := if fromT = "" then "00:00" else fromT
  let toT := if toT = "" then "23:59" else toT
  if store.isEmpty then .ok ⟨0, 0⟩
  else
    match (store.dropLast).getLast? with
    | none => .ok ⟨0, 0⟩
    | some (k, _) =>
      if k = 0 then .ok ⟨0, 0⟩
      else
        let count := store.length - 1
        match sumDays du store fromT toT count with
        | .error e => .error e
        | .ok (tl, tp) => .ok ⟨tl / (count : ℚ), tp / (count : ℚ)⟩

/-- Operation `averagePowerBetweenTimeIndices(fromTimeIndex, toTimeIndex)`
(solis.mjs lines 926-958): same-day windows delegate to a single
`averagePowerBetween`; a window whose endpoints fall on different calendar
days is split into `from → "23:30"` and `"00:00" → to` over the same
store, and the two averages are summed component-wise. -/
def averagePowerBetweenTimeIndices (du : DateUtil) (store : Store)
    (fromTimeIndex toTimeIndex : ℕ) : Except String Power :=
  let fromD := du.atAbs fromTimeIndex
  let toD := du.atAbs toTimeIndex
  if fromD.dateIndex = toD.dateIndex then
    averagePowerBetween du store fromD.timeText toD.timeText
  else
    match averagePowerBetween du store fromD.timeText "23:30" with
    | .error e => .error e
    | .ok power1 =>
      match averagePowerBetween du store "00:00" toD.timeText with
      | .error e => .error e
      | .ok power2 => .ok ⟨power1.load + power2.load, power1.pv + power2.pv⟩

/-- A trivial date collaborator: every absolute time maps to its own value
as both indices, with `timeText` `"22:00"` below 10 and `"02:00"` above. -/
def duW : DateUtil :=
  { atAbs := fun t => if t < 10 then ⟨t, 0, "22:00"⟩ else ⟨t, 1, "02:00"⟩
    atMidnightTI := fun _ => 100
    atTimeTI := fun _ dateIndex => dateIndex }

/-- A two-day store for the C8 witness: the complete day 100 holds one
record, day 200 is the in-progress day excluded from averaging. -/
def storeW : Store := [(100, [(100, snapW1)]), (200, [])]

/-- The frame property of a settings-string rewrite: the output has the
same number of comma-separated fields as the input, and every position
other than 0, 1, 2, 3, 6 and 10 is returned unchanged. -/
def framePreserved (setting out : List Char) : Prop :=
  (out.splitOn ',').length = (setting.splitOn ',').length
  ∧ ∀ i, i ≠ 0 → i ≠ 1 → i ≠ 2 → i ≠ 3 → i ≠ 6 → i ≠ 10 →
      (out.splitOn ',')[i]? = (setting.splitOn ',')[i]?

/-- The common shape of the four rewrites: positions 0, 1, 2, 3, 6, 10
replaced. -/
def sets6 (fields : List (List Char)) (v0 v1 v2 v3 v6 v10 : List Char) :
    List (List Char) :=
  (((((fields.set 0 v0).set 1 v1).set 2 v2).set 3 v3).set 6 v6).set 10 v10

/-! ### The request signer (solis.mjs lines 234-257, 320-335)

`stringToSign` and `signature` delegate the hash primitives to Node's
`crypto` module, which is outside this repository.  The primitives are
modelled from the spec: MD5 (RFC 1321) for the content hash and HMAC-SHA1
(RFC 2104/3174) for the keyed signature, over UTF-8 bytes, base64-encoded.
All 32-bit machine arithmetic is `ℕ` with explicit `% 2^32`. -/

/-- Wrap-around 32-bit addition. -/
def add32 (a b : ℕ) : ℕ := (a + b) % 4294967296

/-- Truncation to 32 bits. -/
def mask32 (a : ℕ) : ℕ := a % 4294967296

/-- Bitwise 32-bit complement. -/
def not32 (a : ℕ) : ℕ := 4294967295 - mask32 a

/-- Left rotation of a 32-bit word. -/
def rotl32 (x n : ℕ) : ℕ := mask32 x * 2 ^ n % 4294967296 + mask32 x / 2 ^ (32 - n)

/-- UTF-8 bytes of a string (what `createHash(...).update(string)` hashes). -/
def strBytes (s : String) : List ℕ := s.toUTF8.toList.map (fun b => b.toNat)

/-- Split a byte list into chunks of `n + 1` bytes. -/
def chunksOfSucc (n : ℕ) : List ℕ → List (List ℕ)
  | [] => []
  | x :: xs =>
    (x :: xs).take (n + 1) :: chunksOfSucc n ((x :: xs).drop (n + 1))
  termination_by l => l.length
  decreasing_by simp; omega

/-- The MD5 sine-derived round constants (RFC 1321). -/
def md5K : List ℕ :=
  [0xd76aa478, 0xe8c7b756, 0x242070db, 0xc1bdceee,
   0xf57c0faf, 0x4787c62a, 0xa8304613, 0xfd469501,
   0x698098d8, 0x8b44f7af, 0xffff5bb1, 0x895cd7be,
   0x6b901122, 0xfd987193, 0xa679438e, 0x49b40821,
   0xf61e2562, 0xc040b340, 0x265e5a51, 0xe9b6c7aa,
   0xd62f105d, 0x02441453, 0xd8a1e681, 0xe7d3fbc8,
   0x21e1cde6, 0xc33707d6, 0xf4d50d87, 0x455a14ed,
   0xa9e3e905, 0xfcefa3f8, 0x676f02d9, 0x8d2a4c8a,
   0xfffa3942, 0x8771f681, 0x6d9d6122, 0xfde5380c,
   0xa4beea44, 0x4bdecfa9, 0xf6bb4b60, 0xbebfbc70,
   0x289b7ec6, 0xeaa127fa, 0xd4ef3085, 0x04881d05,
   0xd9d4d039, 0xe6db99e5, 0x1fa27cf8, 0xc4ac5665,
   0xf4292244, 0x432aff97, 0xab9423a7, 0xfc93a039,
   0x655b59c3, 0x8f0ccc92, 0xffeff47d, 0x85845dd1,
   0x6fa87e4f, 0xfe2ce6e0, 0xa3014314, 0x4e0811a1,
   0xf7537e82, 0xbd3af235, 0x2ad7d2bb, 0xeb86d391]

/-- The MD5 per-round left-rotation amounts. -/
def md5S : List ℕ :=
  [7, 12, 17, 22, 7, 12, 17, 22, 7, 12, 17, 22, 7, 12, 17, 22,
   5, 9, 14, 20, 5, 9, 14, 20, 5, 9, 14, 20, 5, 9, 14, 20,
   4, 11, 16, 23, 4, 11, 16, 23, 4, 11, 16, 23, 4, 11, 16, 23,
   6, 10, 15, 21, 6, 10, 15, 21, 6, 10, 15, 21, 6, 10, 15, 21]

/-- The MD5 round function per quarter. -/
def md5FF (i b c d : ℕ) : ℕ :=
  if i < 16 then Nat.lor (Nat.land b c) (Nat.land (not32 b) d)
  else if i < 32 then Nat.lor (Nat.land b d) (Nat.land c (not32 d))
  else if i < 48 then Nat.xor b (Nat.xor c d)
  else Nat.xor c (Nat.lor b (not32 d))

/-- The MD5 message-word schedule per quarter. -/
def md5GIdx (i : ℕ) : ℕ :=
  if i < 16 then i
  else if i < 32 then (5 * i + 1) % 16
  else if i < 48 then (3 * i + 5) % 16
  else 7 * i % 16

/-- Little-endian 32-bit word `j` of a 64-byte block. -/
def blockWordLE (block : List ℕ) (j : ℕ) : ℕ :=
  block.getD (4 * j) 0 + 256 * block.getD (4 * j + 1) 0
    + 65536 * block.getD (4 * j + 2) 0 + 16777216 * block.getD (4 * j + 3) 0

/-- One MD5 block transform. -/
def md5ProcessBlock (st : ℕ × ℕ × ℕ × ℕ) (block : List ℕ) : ℕ × ℕ × ℕ × ℕ :=
  let r := (List.range 64).foldl
    (fun (q : ℕ × ℕ × ℕ × ℕ) i =>
      let a := q.1
      let b := q.2.1
      let c := q.2.2.1
      let d := q.2.2.2
      let tmp := add32 b (rotl32
        (add32 (add32 a (md5FF i b c d))
          (add32 (md5K.getD i 0) (blockWordLE block (md5GIdx i))))
        (md5S.getD i 0))
      (d, tmp, b, c))
    st
  (add32 st.1 r.1, add32 st.2.1 r.2.1, add32 st.2.2.1 r.2.2.1, add32 st.2.2.2 r.2.2.2)

/-- Merkle-Damgård padding with a little-endian 64-bit bit length. -/
def md5Pad (msg : List ℕ) : List ℕ :=
  let bitLen := msg.length * 8
  let padLen := (119 - msg.length % 64) % 64
  msg ++ [128] ++ List.replicate padLen 0
    ++ (List.range 8).map (fun i => bitLen / 2 ^ (8 * i) % 256)

/-- The final MD5 state of a byte message. -/
def md5State (msg : List ℕ) : ℕ × ℕ × ℕ × ℕ :=
  (chunksOfSucc 63 (md5Pad msg)).foldl md5ProcessBlock
    (0x67452301, 0xefcdab89, 0x98badcfe, 0x10325476)

/-- The 128-bit MD5 digest packed into one natural number (the digest's
bytes in little-endian positional order). -/
def md5Nat (msg : List ℕ) : ℕ :=
  (md5State msg).1 + 4294967296 * (md5State msg).2.1
    + 18446744073709551616 * (md5State msg).2.2.1
    + 79228162514264337593543950336 * (md5State msg).2.2.2

/-- The 16 digest bytes of a packed 128-bit digest. -/
def md5DigestBytes (n : ℕ) : List ℕ :=
  (List.range 16).map (fun i => n / 2 ^ (8 * i) % 256)

/-- The base64 alphabet. -/
def base64Chars : List Char :=
  "ABCDEFGHIJKLMNOPQRSTUVWXYZabcdefghijklmnopqrstuvwxyz0123456789+/".toList

/-- Character for a 6-bit value. -/
def b64c (n : ℕ) : Char := base64Chars.getD n 'A'

/-- One base64 output group for up to three input bytes. -/
def b64Group : List ℕ → List Char
  | [b0, b1, b2] =>
    [b64c (b0 / 4), b64c (b0 % 4 * 16 + b1 / 16), b64c (b1 % 16 * 4 + b2 / 64),
     b64c (b2 % 64)]
  | [b0, b1] =>
    [b64c (b0 / 4), b64c (b0 % 4 * 16 + b1 / 16), b64c (b1 % 16 * 4), '=']
  | [b0] => [b64c (b0 / 4), b64c (b0 % 4 * 16), '=', '=']
  | _ => []

/-- Standard base64 encoding (`digest('base64')`). -/
def base64Encode (bytes : List ℕ) : String :=
  String.mk (((chunksOfSucc 2 bytes).map b64Group).flatten)

/-- Content hash `this.md5(data)` (solis.mjs lines 234-236): base64 of the MD5 digest
of the UTF-8 body text. -/
def md5 (data : String) : String :=
  base64Encode (md5DigestBytes (md5Nat (strBytes data)))

/-- The SHA-1 round constants. -/
def sha1K (i : ℕ) : ℕ :=
  if i < 20 then 0x5a827999
  else if i < 40 then 0x6ed9eba1
  else if i < 60 then 0x8f1bbcdc
  else 0xca62c1d6

/-- The SHA-1 round function. -/
def sha1F (i b c d : ℕ) : ℕ :=
  if i < 20 then Nat.lor (Nat.land b c) (Nat.land (not32 b) d)
  else if i < 40 then Nat.xor b (Nat.xor c d)
  else if i < 60 then Nat.lor (Nat.lor (Nat.land b c) (Nat.land b d)) (Nat.land c d)
  else Nat.xor b (Nat.xor c d)

/-- Big-endian 32-bit word `j` of a 64-byte block. -/
def blockWordBE (block : List ℕ) (j : ℕ) : ℕ :=
  16777216 * block.getD (4 * j) 0 + 65536 * block.getD (4 * j + 1) 0
    + 256 * block.getD (4 * j + 2) 0 + block.getD (4 * j + 3) 0

/-- The 80-entry SHA-1 message schedule. -/
def sha1Ws (block : List ℕ) : List ℕ :=
  let w16 := (List.range 16).map (blockWordBE block)
  (List.range 64).foldl
    (fun ws _ =>
      let n := ws.length
      ws ++ [rotl32 (Nat.xor (ws.getD (n - 3) 0)
        (Nat.xor (ws.getD (n - 8) 0)
          (Nat.xor (ws.getD (n - 14) 0) (ws.getD (n - 16) 0)))) 1])
    w16

/-- One SHA-1 block transform. -/
def sha1ProcessBlock (st : ℕ × ℕ × ℕ × ℕ × ℕ) (block : List ℕ) :
    ℕ × ℕ × ℕ × ℕ × ℕ :=
  let ws := sha1Ws block
  let r := (List.range 80).foldl
    (fun (q : ℕ × ℕ × ℕ × ℕ × ℕ) i =>
      let a := q.1
      let b := q.2.1
      let c := q.2.2.1
      let d := q.2.2.2.1
      let e := q.2.2.2.2
      let tmp := add32 (rotl32 a 5)
        (add32 (sha1F i b c d) (add32 e (add32 (sha1K i) (ws.getD i 0))))
      (tmp, a, rotl32 b 30, c, d))
    st
  (add32 st.1 r.1, add32 st.2.1 r.2.1, add32 st.2.2.1 r.2.2.1,
   add32 st.2.2.2.1 r.2.2.2.1, add32 st.2.2.2.2 r.2.2.2.2)

/-- Merkle-Damgård padding with a big-endian 64-bit bit length. -/
def sha1Pad (msg : List ℕ) : List ℕ :=
  let bitLen := msg.length * 8
  let padLen := (119 - msg.length % 64) % 64
  msg ++ [128] ++ List.replicate padLen 0
    ++ (List.range 8).map (fun i => bitLen / 2 ^ (8 * (7 - i)) % 256)

/-- Big-endian bytes of one 32-bit word. -/
def wordBEBytes (w : ℕ) : List ℕ :=
  [w / 16777216 % 256, w / 65536 % 256, w / 256 % 256, w % 256]

/-- The 20-byte SHA-1 digest of a byte message. -/
def sha1Bytes (msg : List ℕ) : List ℕ :=
  let st := (chunksOfSucc 63 (sha1Pad msg)).foldl sha1ProcessBlock
    (0x67452301, 0xefcdab89, 0x98badcfe, 0x10325476, 0xc3d2e1f0)
  wordBEBytes st.1 ++ wordBEBytes st.2.1 ++ wordBEBytes st.2.2.1
    ++ wordBEBytes st.2.2.2.1 ++ wordBEBytes st.2.2.2.2

/-- HMAC-SHA1 (RFC 2104): block-sized key, inner pad 0x36, outer pad 0x5c. -/
def hmacSha1 (key msg : List ℕ) : List ℕ :=
  let k0 := if 64 < key.length then sha1Bytes key else key
  let k := k0 ++ List.replicate (64 - k0.length) 0
  let ipad := k.map (fun b => Nat.xor b 54)
  let opad := k.map (fun b => Nat.xor b 92)
  sha1Bytes (opad ++ sha1Bytes (ipad ++ msg))

/-- Operation `stringToSign(body, url, method, contentType, date)` (solis.mjs lines
238-253): the canonical body text (objects are JSON-serialized by the
caller side of this model), its base64 MD5, and the five components joined
by line feeds.  The `||` defaults apply only to absent arguments; `api()`
always supplies all five. -/
def stringToSign (body url method contentType date : String) : String × String :=
  let md5v := md5 body
  (method ++ "\n" ++ md5v ++ "\n" ++ contentType ++ "\n" ++ date ++ "\n" ++ url,
   md5v)

/-- Operation `signature(stringToSign, secretKey)` (solis.mjs lines 255-257). -/
def signature (stringToSignText secretKey : String) : String :=
  base64Encode (hmacSha1 (strBytes secretKey) (strBytes stringToSignText))

/-- The Authorization value assembled by `api()` (solis.mjs line 324):
`'API ' + key + ':' + signature(...)` over the string-to-sign built with
content type `application/json`. -/
def apiAuth (key secret body url method date : String) : String :=
  "API " ++ key ++ ":"
    ++ signature (stringToSign body url method "application/json" date).1 secret

/-! ## Theorems -/

theorem isCenti_elim {q : ℚ} (h : isCenti q) : ∃ k : ℤ, q = (k : ℚ) / 100 := by
  refine ⟨(q * 100).num, ?_⟩
  have h100 : (q * 100) = ((q * 100).num : ℚ) := by
    conv_lhs => rw [← Rat.num_div_den (q * 100)]
    rw [h]; simp
  field_simp
  linarith [h100]

theorem round2_int_div (m : ℤ) : round2 ((m : ℚ) / 100) = (m : ℚ) / 100 := by
  unfold round2
  have h2 : (m : ℚ) / 100 * 100 + 1 / 2 = 1 / 2 + (m : ℚ) := by ring
  rw [h2]
  have h3 : ⌊(1 / 2 : ℚ) + (m : ℚ)⌋ = m := by
    rw [Int.floor_add_int]
    norm_num
  rw [h3]

theorem round2_centi {a b : ℚ} (ha : isCenti a) (hb : isCenti b) :
    round2 (a - b) = a - b := by
  obtain ⟨j, hj⟩ := isCenti_elim ha
  obtain ⟨k, hk⟩ := isCenti_elim hb
  subst hj hk
  have h1 : (j : ℚ) / 100 - (k : ℚ) / 100 = ((j - k : ℤ) : ℚ) / 100 := by
    push_cast; ring
  rw [h1, round2_int_div]

theorem lookupTree_cons {α : Type} (k0 : ℕ) (v0 : α) (rest : List (ℕ × α)) (k : ℕ) :
    lookupTree ((k0, v0) :: rest) k = if k0 = k then some v0 else lookupTree rest k := by
  by_cases h : k0 = k <;> simp [lookupTree, List.find?_cons, h]

theorem lookupTree_setTree_self {α : Type} (t : List (ℕ × α)) (k : ℕ) (v : α) :
    lookupTree (setTree t k v) k = some v := by
  induction t with
  | nil => simp [setTree, lookupTree]
  | cons p rest ih =>
    obtain ⟨k0, v0⟩ := p
    unfold setTree
    by_cases h1 : k < k0
    · simp [h1, lookupTree_cons]
    · by_cases h2 : k = k0
      · simp [h1, h2, lookupTree_cons]
      · simp only [if_neg h1, if_neg h2, lookupTree_cons]
        have : ¬ k0 = k := fun h => h2 h.symm
        simp [this, ih]

theorem lookupTree_setTree_ne {α : Type} (t : List (ℕ × α)) (k k' : ℕ) (v : α)
    (hne : k' ≠ k) : lookupTree (setTree t k v) k' = lookupTree t k' := by
  have hkk : ¬ k = k' := fun h => hne h.symm
  induction t with
  | nil => simp [setTree, lookupTree_cons, hkk, lookupTree]
  | cons p rest ih =>
    obtain ⟨k0, v0⟩ := p
    unfold setTree
    by_cases h1 : k < k0
    · simp [h1, lookupTree_cons, hkk]
    · by_cases h2 : k = k0
      · subst h2
        simp [h1, lookupTree_cons, hkk]
      · simp [if_neg h1, if_neg h2, lookupTree_cons, ih]

theorem updateDay_mono (dateAt : ℕ → DatePieces) (ss : List Sample) (day : Day) (t : ℕ)
    (h : (lookupTree day t).isSome) :
    lookupTree (updateDay dateAt day ss) t = lookupTree day t := by
  induction ss generalizing day with
  | nil => rfl
  | cons s rest ih =>
    unfold updateDay
    by_cases hc : (lookupTree day s.dataTimestamp).isNone ∧ s.homeLoadTodayEnergy ≠ 0
    · have hne : t ≠ s.dataTimestamp := by
        intro he
        rw [he] at h
        rw [Option.isNone_iff_eq_none] at hc
        simp [hc.1] at h
      rw [if_pos hc]
      rw [ih _ (by rwa [lookupTree_setTree_ne _ _ _ _ hne]),
        lookupTree_setTree_ne _ _ _ _ hne]
    · rw [if_neg hc]
      exact ih day h

theorem updateDay_isSome_mono (dateAt : ℕ → DatePieces) (ss : List Sample) (day : Day) (t : ℕ)
    (h : (lookupTree day t).isSome) :
    (lookupTree (updateDay dateAt day ss) t).isSome := by
  rw [updateDay_mono dateAt ss day t h]; exact h

theorem updateDay_writes (dateAt : ℕ → DatePieces) (ss : List Sample) (day : Day)
    (s : Sample) (hs : s ∈ ss) (hload : s.homeLoadTodayEnergy ≠ 0) :
    (lookupTree (updateDay dateAt day ss) s.dataTimestamp).isSome := by
  induction ss generalizing day with
  | nil => cases hs
  | cons s0 rest ih =>
    unfold updateDay
    rcases List.mem_cons.mp hs with he | hm
    · subst he
      by_cases hc : (lookupTree day s.dataTimestamp).isNone ∧ s.homeLoadTodayEnergy ≠ 0
      · rw [if_pos hc]
        exact updateDay_isSome_mono dateAt rest _ _
          (by rw [lookupTree_setTree_self]; rfl)
      · have hsome : (lookupTree day s.dataTimestamp).isSome := by
          cases hn : lookupTree day s.dataTimestamp with
          | none => exact absurd ⟨by rw [hn]; rfl, hload⟩ hc
          | some v => rfl
        rw [if_neg hc]
        exact updateDay_isSome_mono dateAt rest day _ hsome
    · by_cases hc : (lookupTree day s0.dataTimestamp).isNone ∧ s0.homeLoadTodayEnergy ≠ 0
      · rw [if_pos hc]; exact ih _ hm
      · rw [if_neg hc]; exact ih _ hm

theorem updateDay_zero_skip (dateAt : ℕ → DatePieces) (ss : List Sample) (day : Day) (t : ℕ)
    (h : ∀ s ∈ ss, s.dataTimestamp = t → s.homeLoadTodayEnergy = 0) :
    lookupTree (updateDay dateAt day ss) t = lookupTree day t := by
  induction ss generalizing day with
  | nil => rfl
  | cons s rest ih
  =>
    unfold updateDay
    by_cases hc : (lookupTree day s.dataTimestamp).isNone ∧ s.homeLoadTodayEnergy ≠ 0
    · have hne : t ≠ s.dataTimestamp := by
        intro he
        exact hc.2 (h s (List.mem_cons_self s rest) he.symm)
      rw [if_pos hc]
      rw [ih _ (fun s' hs' => h s' (List.mem_cons_of_mem s hs')),
        lookupTree_setTree_ne _ _ _ _ hne]
    · rw [if_neg hc]
      exact ih day (fun s' hs' => h s' (List.mem_cons_of_mem s hs'))

theorem updateDay_of_all_present (dateAt : ℕ → DatePieces) (ss : List Sample) (day : Day)
    (h : ∀ s ∈ ss, s.homeLoadTodayEnergy ≠ 0 → (lookupTree day s.dataTimestamp).isSome) :
    updateDay dateAt day ss = day := by
  induction ss with
  | nil => rfl
  | cons s rest ih =>
    unfold updateDay
    by_cases hc : (lookupTree day s.dataTimestamp).isNone ∧ s.homeLoadTodayEnergy ≠ 0
    · have := h s (List.mem_cons_self s rest) hc.2
      rw [Option.isNone_iff_eq_none] at hc
      simp [hc.1] at this
    · rw [if_neg hc]
      exact ih (fun s' hs' => h s' (List.mem_cons_of_mem s hs'))

theorem updateDay_idem (dateAt : ℕ → DatePieces) (ss : List Sample) (day : Day) :
    updateDay dateAt (updateDay dateAt day ss) ss = updateDay dateAt day ss :=
  updateDay_of_all_present dateAt ss _
    (fun s hs hl => updateDay_writes dateAt ss day s hs hl)

theorem setTree_setTree {α : Type} (t : List (ℕ × α)) (k : ℕ) (v v' : α) :
    setTree (setTree t k v) k v' = setTree t k v' := by
  induction t with
  | nil => simp [setTree]
  | cons p rest ih =>
    obtain ⟨k0, v0⟩ := p
    by_cases h1 : k < k0
    · simp [setTree, h1, lt_irrefl]
    · by_cases h2 : k = k0
      · simp [setTree, h1, h2, lt_irrefl]
      · simp [setTree, h1, h2, ih]

theorem dayAt_update (dateAt : ℕ → DatePieces) (store : Store) (dateIndex : ℕ)
    (samples : List Sample) :
    dayAt (update dateAt store dateIndex (.ok samples)).1 dateIndex
      = updateDay dateAt (dayAt store dateIndex) samples := by
  unfold update dayAt
  rw [lookupTree_setTree_self]
  rfl

/-- C1: `update` writes a snapshot only when no record exists under
`(dateIndex, timeIndex)` and the sample's `homeLoadTodayEnergy` is not
exactly zero; ingesting the same response twice leaves exactly one stored
record per key (the second pass is a silent no-op that still reports the
ok result), existing records are never overwritten, and a zero-load sample
never creates a record. -/
theorem update_idempotent_ingestion
    (dateAt : ℕ → DatePieces) (store : Store) (dateIndex : ℕ) (samples : List Sample) :
    update dateAt (update dateAt store dateIndex (.ok samples)).1 dateIndex (.ok samples)
        = update dateAt store dateIndex (.ok samples)
    ∧ (update dateAt store dateIndex (.ok samples)).2 = .ok "Solis Data updated successfully"
    ∧ (∀ t s0, lookupTree (dayAt store dateIndex) t = some s0 →
        lookupTree (dayAt (update dateAt store dateIndex (.ok samples)).1 dateIndex) t = some s0)
    ∧ (∀ t, (∀ s ∈ samples, s.dataTimestamp = t → s.homeLoadTodayEnergy = 0) →
        lookupTree (dayAt (update dateAt store dateIndex (.ok samples)).1 dateIndex) t
          = lookupTree (dayAt store dateIndex) t)
    ∧ (∀ s ∈ samples, lookupTree (dayAt store dateIndex) s.dataTimestamp = none →
        s.homeLoadTodayEnergy ≠ 0 →
        (lookupTree (dayAt (update dateAt store dateIndex (.ok samples)).1 dateIndex)
          s.dataTimestamp).isSome) := by
  have hday := dayAt_update dateAt store dateIndex samples
  refine ⟨?_, rfl, ?_, ?_, ?_⟩
  · show update dateAt
      (setTree store dateIndex (updateDay dateAt (dayAt store dateIndex) samples)) dateIndex
      (.ok samples) = _
    unfold update
    rw [show lookupTree
        (setTree store dateIndex (updateDay dateAt (dayAt store dateIndex) samples)) dateIndex
        = some (updateDay dateAt (dayAt store dateIndex) samples) from
        lookupTree_setTree_self _ _ _]
    show (setTree _ dateIndex (updateDay dateAt (updateDay dateAt (dayAt store dateIndex) samples) samples), _) = _
    rw [updateDay_idem, setTree_setTree]
    rfl
  · intro t s0 h0
    rw [hday, updateDay_mono dateAt samples _ t (by rw [h0]; rfl)]
    exact h0
  · intro t hz
    rw [hday]
    exact updateDay_zero_skip dateAt samples _ t hz
  · intro s hs _ hload
    rw [hday]
    exact updateDay_writes dateAt samples _ s hs hload

/-- A concrete sample used by several witnesses. -/
def sampleW : Sample :=
  { dataTimestamp := 1800000, pac := 500, eToday := 2, familyLoadPower := 300
    homeLoadTodayEnergy := 3/2, pSum := 100, gridPurchasedTodayEnergy := 1
    gridSellTodayEnergy := 0, batteryCapacitySoc := 50, batteryPower := 0 }

/-- A zero-load sample (suppressed by ingestion). -/
def sampleZ : Sample := { sampleW with dataTimestamp := 3600000, homeLoadTodayEnergy := 0 }

/-- Witness for C1 at a concrete store and sample list. -/
theorem update_idempotent_ingestion_witness :
    update (fun _ => ⟨"1", "1", "2025", "00:30"⟩) ((update (fun _ => ⟨"1", "1", "2025", "00:30"⟩) [] 0 (.ok [sampleW, sampleZ])).1) 0 (.ok [sampleW, sampleZ])
        = update (fun _ => ⟨"1", "1", "2025", "00:30"⟩) [] 0 (.ok [sampleW, sampleZ])
    ∧ lookupTree (dayAt (update (fun _ => ⟨"1", "1", "2025", "00:30"⟩) [] 0 (.ok [sampleW, sampleZ])).1 0) 3600000
        = lookupTree (dayAt ([] : Store) 0) 3600000
    ∧ (lookupTree (dayAt (update (fun _ => ⟨"1", "1", "2025", "00:30"⟩) [] 0 (.ok [sampleW, sampleZ])).1 0) 1800000).isSome :=
  ⟨(update_idempotent_ingestion (fun _ => ⟨"1", "1", "2025", "00:30"⟩) [] 0 [sampleW, sampleZ]).1,
   (update_idempotent_ingestion (fun _ => ⟨"1", "1", "2025", "00:30"⟩) [] 0 [sampleW, sampleZ]).2.2.2.1 3600000
     (by intro s hs hts
         rcases List.mem_cons.mp hs with he | hm
         · subst he; exact absurd hts (by decide)
         · rcases List.mem_cons.mp hm with he | hm2
           · subst he; rfl
           · cases hm2),
   (update_idempotent_ingestion (fun _ => ⟨"1", "1", "2025", "00:30"⟩) [] 0 [sampleW, sampleZ]).2.2.2.2 sampleW
     (List.mem_cons_self _ _) rfl (by norm_num [sampleW])⟩

theorem mem_of_getLast?_eq_some {α : Type} {l : List α} {a : α}
    (h : l.getLast? = some a) : a ∈ l := by
  have hx : a ∈ l.getLast? := Option.mem_def.mpr h
  obtain ⟨hne, ha⟩ := List.mem_getLast?_eq_getLast hx
  rw [ha]
  exact List.getLast_mem hne

theorem mem_of_head?_eq_some {α : Type} {l : List α} {a : α}
    (h : l.head? = some a) : a ∈ l := by
  cases l with
  | nil => cases h
  | cons x xs =>
    simp only [List.head?_cons, Option.some.injEq] at h
    rw [← h]
    exact List.mem_cons_self x xs

theorem childBefore_mem {α : Type} {t : List (ℕ × α)} {k : ℕ} {p : ℕ × α}
    (h : childBefore t k = some p) : p ∈ t ∧ p.1 < k := by
  unfold childBefore at h
  have hm := mem_of_getLast?_eq_some h
  refine ⟨List.mem_of_mem_filter hm, ?_⟩
  have := List.of_mem_filter hm
  simpa using this

theorem childAfter_mem {α : Type} {t : List (ℕ × α)} {k : ℕ} {p : ℕ × α}
    (h : childAfter t k = some p) : p ∈ t ∧ k < p.1 := by
  unfold childAfter at h
  have hm := mem_of_head?_eq_some h
  refine ⟨List.mem_of_mem_filter hm, ?_⟩
  have := List.of_mem_filter hm
  simpa using this

theorem childBefore_none {α : Type} {t : List (ℕ × α)} {k : ℕ}
    (h : childBefore t k = none) : ∀ p ∈ t, ¬ p.1 < k := by
  intro p hp hlt
  unfold childBefore at h
  rw [List.getLast?_eq_none_iff] at h
  have : p ∈ t.filter (fun p => p.1 < k) := List.mem_filter.mpr ⟨hp, by simpa⟩
  rw [h] at this
  cases this

theorem childAfter_none {α : Type} {t : List (ℕ × α)} {k : ℕ}
    (h : childAfter t k = none) : ∀ p ∈ t, ¬ k < p.1 := by
  intro p hp hlt
  unfold childAfter at h
  rw [List.head?_eq_none_iff] at h
  have : p ∈ t.filter (fun p => k < p.1) := List.mem_filter.mpr ⟨hp, by simpa⟩
  rw [h] at this
  cases this

theorem lookupTree_none_key {α : Type} {t : List (ℕ × α)} {k : ℕ}
    (h : lookupTree t k = none) : ∀ p ∈ t, p.1 ≠ k := by
  intro p hp he
  unfold lookupTree at h
  rw [Option.map_eq_none'] at h
  have := List.find?_eq_none.mp h p hp
  simp [he] at this

theorem lookupTree_some_of_key {α : Type} {t : List (ℕ × α)} {k : ℕ}
    (h : ∃ p ∈ t, p.1 = k) : ∃ q ∈ t, q.1 = k ∧ lookupTree t k = some q.2 := by
  unfold lookupTree
  cases hf : t.find? (fun p => p.1 == k) with
  | none =>
    obtain ⟨p, hp, hk⟩ := h
    have := List.find?_eq_none.mp hf p hp
    simp [hk] at this
  | some q =>
    refine ⟨q, List.mem_of_find?_eq_some hf, ?_, by simp⟩
    have := List.find?_some hf
    simpa using this

theorem jsFalsyIdx_iff (o : Option ℕ) :
    jsFalsyIdx o = true ↔ o = none ∨ o = some 0 := by
  cases o with
  | none => simp [jsFalsyIdx]
  | some n => cases n <;> simp [jsFalsyIdx]

theorem jsFalsyIdx_false_ne_none {o : Option ℕ} (h : jsFalsyIdx o = false) :
    o ≠ none := by
  intro he
  subst he
  simp [jsFalsyIdx] at h

theorem chooseNeighbour_none {t : ℕ} {bi ai : Option ℕ}
    (h : chooseNeighbour t bi ai = none) :
    ai = none ∧ (bi = none ∨ bi = some 0) := by
  unfold chooseNeighbour at h
  cases hb : jsFalsyIdx bi with
  | true =>
    rw [hb, if_pos rfl] at h
    subst h
    exact ⟨rfl, (jsFalsyIdx_iff bi).mp hb⟩
  | false =>
    exfalso
    rw [hb] at h
    simp only [Bool.false_eq_true, if_false] at h
    cases ha : jsFalsyIdx ai with
    | true =>
      rw [ha, if_pos rfl] at h
      exact jsFalsyIdx_false_ne_none hb h
    | false =>
      rw [ha] at h
      simp only [Bool.false_eq_true, if_false] at h
      split at h
      · exact jsFalsyIdx_false_ne_none hb h
      · split at h
        · exact jsFalsyIdx_false_ne_none ha h
        · exact jsFalsyIdx_false_ne_none hb h

theorem chooseNeighbour_some {t : ℕ} {bi ai : Option ℕ} {x : ℕ}
    (h : chooseNeighbour t bi ai = some x) : bi = some x ∨ ai = some x := by
  unfold chooseNeighbour at h
  cases hb : jsFalsyIdx bi with
  | true =>
    rw [hb, if_pos rfl] at h
    exact Or.inr h
  | false =>
    rw [hb] at h
    simp only [Bool.false_eq_true, if_false] at h
    cases ha : jsFalsyIdx ai with
    | true =>
      rw [ha, if_pos rfl] at h
      exact Or.inl h
    | false =>
      rw [ha] at h
      simp only [Bool.false_eq_true, if_false] at h
      split at h
      · exact Or.inl h
      · split at h
        · exact Or.inr h
        · exact Or.inl h

theorem powerAtDay_cum_mem (day : Day) (ti : ℕ) (f : CumField)
    (hf : f ≠ CumField.gimp) (hne : day ≠ []) (hpos : ∀ p ∈ day, 0 < p.1) :
    ∃ q ∈ day, (powerAtDay day ti).cum f = some (q.2.cum f) := by
  unfold powerAtDay
  cases hex : lookupTree day ti with
  | some s =>
    unfold lookupTree at hex
    rw [Option.map_eq_some'] at hex
    obtain ⟨q, hq, hqs⟩ := hex
    refine ⟨q, List.mem_of_find?_eq_some hq, ?_⟩
    cases f with
    | house => simp [PowerRec.cum, Snapshot.cum, hqs]
    | gexp => simp [PowerRec.cum, Snapshot.cum, hqs]
    | gimp => exact absurd rfl hf
    | pv => simp [PowerRec.cum, Snapshot.cum, hqs]
  | none =>
    cases hch : chooseNeighbour ti ((childBefore day ti).map (·.1))
        ((childAfter day ti).map (·.1)) with
    | none =>
      exfalso
      obtain ⟨ha, hb⟩ := chooseNeighbour_none hch
      rw [Option.map_eq_none'] at ha
      obtain ⟨p0, hp0⟩ := List.exists_mem_of_ne_nil day hne
      rcases hb with hbn | hb0
      · rw [Option.map_eq_none'] at hbn
        have h1 := childBefore_none hbn p0 hp0
        have h2 := childAfter_none ha p0 hp0
        have h3 := lookupTree_none_key hex p0 hp0
        omega
      · rw [Option.map_eq_some'] at hb0
        obtain ⟨pb, hpb, hpb0⟩ := hb0
        have := (childBefore_mem hpb).1
        have := hpos pb this
        omega
    | some ti2 =>
      have hkey : ∃ p ∈ day, p.1 = ti2 := by
        rcases chooseNeighbour_some hch with hb | ha
        · rw [Option.map_eq_some'] at hb
          obtain ⟨pb, hpb, hpbk⟩ := hb
          exact ⟨pb, (childBefore_mem hpb).1, hpbk⟩
        · rw [Option.map_eq_some'] at ha
          obtain ⟨pa, hpa, hpak⟩ := ha
          exact ⟨pa, (childAfter_mem hpa).1, hpak⟩
      obtain ⟨q, hq, _, hlq⟩ := lookupTree_some_of_key hkey
      refine ⟨q, hq, ?_⟩
      simp only [hch, hlq]
      cases f <;> simp [PowerRec.cum, Snapshot.cum]

theorem initSums_cum (f : CumField) : initSums.cum f = some 0 := by
  cases f <;> rfl

theorem isCenti_zero : isCenti 0 := by simp [isCenti]

theorem histLoop_deltas (day : Day) (prices : PriceStore) (tta : ℕ → String)
    (dateIndex : ℕ) (f : CumField) (hf : f ≠ CumField.gimp) (hne : day ≠ [])
    (hpos : ∀ p ∈ day, 0 < p.1) (hcenti : ∀ p ∈ day, isCenti (p.2.cum f)) :
    ∀ (tis : List ℕ) (s : Sums) (s0 : ℚ), s.cum f = some s0 → isCenti s0 →
    ∃ cs : List ℚ,
      tis.map (fun ti => (powerAtDay day ti).cum f) = cs.map some ∧
      (histLoop day prices tta dateIndex tis s).map (fun e => e.cum f)
        = (deltaList cs s0).map some ∧
      ∀ c ∈ cs, isCenti c := by
  intro tis
  induction tis with
  | nil => exact fun s s0 hs hc => ⟨[], rfl, rfl, by simp⟩
  | cons ti rest ih =>
    intro s s0 hs hc0
    obtain ⟨q, hq, hqc⟩ := powerAtDay_cum_mem day ti f hf hne hpos
    have hcq : isCenti (q.2.cum f) := hcenti q hq
    have hs2 : (Sums.mk (powerAtDay day ti).houseLoadTotal
        (powerAtDay day ti).gridExportTotal (powerAtDay day ti).gridImportTotal
        (powerAtDay day ti).pvOutputTotal).cum f = some (q.2.cum f) := by
      cases f with
      | house => exact hqc
      | gexp => exact hqc
      | gimp => exact absurd rfl hf
      | pv => exact hqc
    obtain ⟨cs, h1, h2, h3⟩ := ih _ (q.2.cum f) hs2 hcq
    refine ⟨q.2.cum f :: cs, ?_, ?_, ?_⟩
    · simp [h1, hqc]
    · rw [histLoop]
      simp only [List.map_cons, deltaList]
      refine congrArg₂ _ ?_ h2
      have hhead : (powerAtDay day ti).cum f = some (q.2.cum f) := hqc
      cases f with
      | house =>
        simp only [HistEntry.cum, PowerRec.cum] at hhead ⊢
        simp only [Sums.cum] at hs
        rw [hhead, hs]
        simp [jsSub, jsRound2, round2_centi hcq hc0]
      | gexp =>
        simp only [HistEntry.cum, PowerRec.cum] at hhead ⊢
        simp only [Sums.cum] at hs
        rw [hhead, hs]
        simp [jsSub, jsRound2, round2_centi hcq hc0]
      | gimp => exact absurd rfl hf
      | pv =>
        simp only [HistEntry.cum, PowerRec.cum] at hhead ⊢
        simp only [Sums.cum] at hs
        rw [hhead, hs]
        simp [jsSub, jsRound2, round2_centi hcq hc0]
    · intro c hcm
      rcases List.mem_cons.mp hcm with he | hm
      · rw [he]; exact hcq
      · exact h3 c hm

theorem deltaList_sum (cs : List ℚ) (s : ℚ) :
    (deltaList cs s).sum = cs.getLastD s - s := by
  induction cs generalizing s with
  | nil => simp [deltaList]
  | cons c cs ih =>
    rw [deltaList, List.sum_cons, ih c, List.getLastD_cons]
    ring

theorem deltaList_tail_sum (cs : List ℚ) :
    ((deltaList cs 0).tail).sum = cs.getLastD 0 - cs.headD 0 := by
  cases cs with
  | nil => simp [deltaList]
  | cons c cs =>
    rw [deltaList, List.tail_cons, deltaList_sum, List.getLastD_cons]
    simp

theorem deltaList_headD (cs : List ℚ) :
    (deltaList cs 0).headD 0 = cs.headD 0 := by
  cases cs with
  | nil => rfl
  | cons c cs => simp [deltaList]

/-- C2 (amended): for a non-empty stored day, `getHistory` returns one
entry per visited boundary whose cumulative fields carry 2-decimal-rounded
deltas against the running raw sum.  When every stored cumulative value is
an exact 2-decimal value, the rounding is exact, and then for each of
`houseLoadTotal`, `gridExportTotal` and `pvOutputTotal` (but not
`gridImportTotal`, which the exact-match branch of `powerAt` corrupts via
a misspelled field read): the deltas of the slots after the first sum
exactly to (last cumulative value − first cumulative value); the first
slot's delta baseline is zero, i.e. it equals the first boundary's full
cumulative value, not the difference against the day's first recorded
values.  Without the exact-2-decimal restriction the sums only hold up to
rounding, and the claim as stated fails (see the counterexample). -/
theorem getHistory_slot_deltas (store : Store) (prices : PriceStore)
    (tta : ℕ → String) (dateIndex now : ℕ) (day : Day)
    (hday : lookupTree store dateIndex = some day) (hne : day ≠ [])
    (hpos : ∀ p ∈ day, 0 < p.1) (f : CumField) (hf : f ≠ CumField.gimp)
    (hcenti : ∀ p ∈ day, isCenti (p.2.cum f)) :
    ∃ cs : List ℚ,
      (boundaries dateIndex now).map (fun ti => (powerAtDay day ti).cum f)
        = cs.map some ∧
      ∃ es, getHistory store prices tta dateIndex now = some es ∧
        es.map (fun e => e.cum f) = (deltaList cs 0).map some ∧
        (deltaList cs 0).sum = cs.getLastD 0 ∧
        ((deltaList cs 0).tail).sum = cs.getLastD 0 - cs.headD 0 ∧
        (deltaList cs 0).headD 0 = cs.headD 0 := by
  obtain ⟨cs, h1, h2, _⟩ := histLoop_deltas day prices tta dateIndex f hf hne hpos
    hcenti (boundaries dateIndex now) initSums 0 (initSums_cum f) isCenti_zero
  refine ⟨cs, h1, _, ?_, h2, ?_, deltaList_tail_sum cs, deltaList_headD cs⟩
  · simp [getHistory, hday]
  · rw [deltaList_sum]
    ring

/-- Witness for C2 (amended) on a concrete store whose cumulative values
are exact 2-decimal values. -/
theorem getHistory_slot_deltas_witness :
    ∃ cs : List ℚ,
      (boundaries 0 3600000).map (fun ti => (powerAtDay [(1800000, snapW1)] ti).cum .house)
        = cs.map some ∧
      ∃ es, getHistory [(0, [(1800000, snapW1)])] [] (fun _ => "") 0 3600000 = some es ∧
        es.map (fun e => e.cum .house) = (deltaList cs 0).map some ∧
        (deltaList cs 0).sum = cs.getLastD 0 ∧
        ((deltaList cs 0).tail).sum = cs.getLastD 0 - cs.headD 0 ∧
        (deltaList cs 0).headD 0 = cs.headD 0 :=
  getHistory_slot_deltas [(0, [(1800000, snapW1)])] [] (fun _ => "") 0 3600000
    [(1800000, snapW1)] rfl (by simp) (by simp) .house (by simp)
    (by
      intro p hp
      simp only [List.mem_singleton] at hp
      subst hp
      simp [snapW1, Snapshot.cum, isCenti])

/-- C2 counterexample: with stored cumulative house-load values 0.006 and
0.012 on the first two boundaries, the per-slot deltas returned by
`getHistory` are 0.01 and 0.01; the consecutive-boundary delta (0.01) is
not the cumulative difference 0.006, and no reading of the delta sum
(0.01, or 0.01 + 0.01) equals (last − first) = 0.006 or last = 0.012. -/
theorem getHistory_delta_counterexample :
    ((getHistory storeCE [] (fun _ => "") 0 3600000).getD []).map
        (fun e => e.cum .house) = [some (1/100), some (1/100)]
    ∧ (powerAtDay dayCE 1800000).cum .house = some (6/1000)
    ∧ (powerAtDay dayCE 3600000).cum .house = some (12/1000)
    ∧ ((1/100 : ℚ) ≠ 12/1000 - 6/1000)
    ∧ ((1/100 + 1/100 : ℚ) ≠ 12/1000 - 6/1000)
    ∧ ((1/100 + 1/100 : ℚ) ≠ 12/1000) := by
  have hb : boundaries 0 3600000 = [1800000, 3600000] := by decide
  have p1 : powerAtDay dayCE 1800000
      = ⟨some 50, some (6/1000), some 0, none, some 0⟩ := rfl
  have p2 : powerAtDay dayCE 3600000
      = ⟨some 50, some (12/1000), some 0, none, some 0⟩ := rfl
  have r1 : round2 (6/1000 - 0) = 1/100 := by
    unfold round2
    rw [show (6/1000 - 0 : ℚ) * 100 + 1/2 = 11/10 by norm_num]
    rw [show ⌊(11/10 : ℚ)⌋ = 1 by
      rw [Int.floor_eq_iff]
      norm_num]
    norm_num
  have r2 : round2 (12/1000 - 6/1000) = 1/100 := by
    unfold round2
    rw [show (12/1000 - 6/1000 : ℚ) * 100 + 1/2 = 11/10 by norm_num]
    rw [show ⌊(11/10 : ℚ)⌋ = 1 by
      rw [Int.floor_eq_iff]
      norm_num]
    norm_num
  refine ⟨?_, by rw [p1]; rfl, by rw [p2]; rfl, by norm_num, by norm_num, by norm_num⟩
  show ((getHistory storeCE [] (fun _ => "") 0 3600000).getD []).map
      (fun e => e.cum .house) = [some (1/100), some (1/100)]
  have hst : lookupTree storeCE 0 = some dayCE := rfl
  rw [getHistory, hst, Option.map_some', Option.getD_some, hb]
  rw [histLoop, histLoop, histLoop]
  simp only [List.map_cons, List.map_nil, HistEntry.cum]
  rw [p1, p2]
  simp only [jsSub, jsRound2, Option.map_some', initSums]
  rw [r1, r2]

/-- C6 (amended): after `cleardown`, exactly the
`min(total, movingAveragePeriod + 1)` most recent day sub-trees remain —
the retained window is `movingAveragePeriod + 1` days, not
`movingAveragePeriod`; with the store in ascending dateIndex order the
survivors are the suffix, and every deleted day's key is strictly below
every surviving day's key. -/
theorem cleardown_retention (store : Store) (p : ℕ)
    (hsort : List.Pairwise (fun a b => a.1 < b.1) store) :
    cleardown store p = store.drop (store.length - (p + 1))
    ∧ (cleardown store p).length = min store.length (p + 1)
    ∧ ∀ q ∈ store.take (store.length - (p + 1)), ∀ r ∈ cleardown store p, q.1 < r.1 := by
  have he : cleardown store p = store.drop (store.length - (p + 1)) := by
    unfold cleardown
    rw [← List.rtake_eq_reverse_take_reverse]
    rfl
  refine ⟨he, ?_, ?_⟩
  · rw [he, List.length_drop]
    omega
  · intro q hq r hr
    rw [he] at hr
    rw [← List.take_append_drop (store.length - (p + 1)) store] at hsort
    exact (List.pairwise_append.mp hsort).2.2 q hq r hr

/-- Witness for C6 (amended) with `movingAveragePeriod = 1` on nine days:
two days survive. -/
theorem cleardown_retention_witness :
    cleardown storeNine 1 = storeNine.drop (storeNine.length - 2)
    ∧ (cleardown storeNine 1).length = min storeNine.length 2
    ∧ ∀ q ∈ storeNine.take (storeNine.length - 2), ∀ r ∈ cleardown storeNine 1, q.1 < r.1 :=
  cleardown_retention storeNine 1 (by decide)

/-- C6 counterexample: with a retained window (`movingAveragePeriod`) of 7
and nine stored days, `cleardown` leaves 8 day sub-trees, not 7. -/
theorem cleardown_counterexample :
    (cleardown storeNine 7).length = 8 ∧ (8 : ℕ) ≠ 7 := by
  constructor
  · rfl
  · decide

/-- C7: evaluation at the failing input.  A record stored exactly at the
requested timeIndex with `gridImportTotal = 5` is selected by the
exact-match branch of `powerAt`, but the returned object's
`gridImportTotal` is undefined because line 1026 reads the misspelled
child `gridimportTotal`; the remaining fields do come from the stored
record. -/
theorem powerAt_gridImport_bug :
    lookupTree dayG 1800000 = some snapG
    ∧ snapG.gridImportTotal = 5
    ∧ powerAt [(0, dayG)] 0 1800000
        = some ⟨some 50, some (6/1000), some 0, none, some 0⟩
    ∧ (powerAtDay dayG 1800000).gridImportTotal = none :=
  ⟨rfl, rfl, rfl, rfl⟩

/-- C3: evaluation at the failing input.  Under the post-4B00 dialect,
`inverterDischargeBetween` rejects with a `ReferenceError` (line 743 reads
the undeclared `fromD`/`toD` instead of its `fromTimeText`/`toTimeText`
parameters), so it does not return a result object at all; the pre-4B00
dialect path behaves as specified. -/
theorem inverterDischargeBetween_throws :
    inverterDischargeBetween envPost "22:00" "23:00"
      = .thrown "ReferenceError: fromD is not defined"
    ∧ inverterDischargeBetween envOk "22:00" "23:00"
      = .value (.status "Inverter set to discharge between 22:00 and 23:00") :=
  ⟨rfl, rfl⟩

theorem mkTimeText_midnight_all :
    ∀ h < 24, ∀ m < 60, (mkTimeText h m = "00:00" ↔ h = 0 ∧ m = 0) := by decide

theorem inverterResetNow_ne_noop (env : ControlEnv) (ov : Bool) :
    inverterResetNow env ov ≠ .status "Inverter reset only done at midnight" := by
  unfold inverterResetNow post4B00Charge chargeAPIres
  intro h
  split at h
  · cases h
  · split at h
    · split at h
      · cases h
      · simp at h
      · split at h
        · cases h
        · simp at h
        · split at h
          · cases h
          · simp at h
          · simp at h
    · split at h
      · cases h
      · split at h
        · cases h
        · simp at h

/-- C4 (amended): the scheduled reset operation `inverterReset` invokes
`inverterResetNow` exactly when the current `timeText` is `"00:00"`, i.e.
at midnight — not at the top of every hour; at any other wall-clock time,
minute 0 included, it performs no remote call and returns the status
object `"Inverter reset only done at midnight"`. -/
theorem inverterReset_midnight_only (env : ControlEnv) (now : DateInfo)
    (h m : ℕ) (hh : h < 24) (hm : m < 60) (ht : now.timeText = mkTimeText h m) :
    (h = 0 ∧ m = 0 → inverterReset env now = inverterResetNow env false)
    ∧ (¬(h = 0 ∧ m = 0) →
        inverterReset env now = .status "Inverter reset only done at midnight"
        ∧ inverterReset env now ≠ inverterResetNow env false) := by
  have hiff := mkTimeText_midnight_all h hh m hm
  constructor
  · rintro ⟨rfl, rfl⟩
    unfold inverterReset
    rw [ht, show mkTimeText 0 0 = "00:00" from rfl]
    exact if_pos rfl
  · intro hne
    have hnz : now.timeText ≠ "00:00" := by
      rw [ht]
      exact fun he => hne (hiff.mp he)
    unfold inverterReset
    rw [if_neg hnz]
    exact ⟨rfl, fun he => inverterResetNow_ne_noop env false he.symm⟩

/-- Witness for C4 (amended) at 07:00. -/
theorem inverterReset_midnight_only_witness :
    (7 = 0 ∧ 0 = 0 → inverterReset envOk ⟨0, 0, mkTimeText 7 0⟩ = inverterResetNow envOk false)
    ∧ (¬(7 = 0 ∧ 0 = 0) →
        inverterReset envOk ⟨0, 0, mkTimeText 7 0⟩
          = .status "Inverter reset only done at midnight"
        ∧ inverterReset envOk ⟨0, 0, mkTimeText 7 0⟩ ≠ inverterResetNow envOk false) :=
  inverterReset_midnight_only envOk ⟨0, 0, mkTimeText 7 0⟩ 7 0 (by decide) (by decide) rfl

/-- C4 counterexample: at 01:00 — the top of an hour, minute 0 — the
operation does not execute the reset: it returns the no-op status even
though `inverterResetNow` would have returned a success status. -/
theorem inverterReset_hour_counterexample :
    mkTimeText 1 0 = "01:00"
    ∧ inverterReset envOk ⟨0, 0, mkTimeText 1 0⟩
        = .status "Inverter reset only done at midnight"
    ∧ inverterResetNow envOk false = .status "Inverter reset successfully"
    ∧ OpResult.status "Inverter reset only done at midnight"
        ≠ OpResult.status "Inverter reset successfully" := by
  refine ⟨rfl, rfl, rfl, by decide⟩

/-- C5 (amended): invoked without override, each operation is gated by its
own governing flag alone, whatever the other flag's value: with
`chargingEnabled` false, `inverterCharge` and `inverterGridOnly` are
policy no-ops returning a non-error status object, and `inverterResetNow`
returns an error object (not a status); with `dischargingEnabled` false,
`inverterDischarge` returns its non-error status object.  Each result is
a constant, independent of every remote-call outcome in the environment:
no remote call is consulted. -/
theorem gating_policy (env : ControlEnv) (fromD toD : DateInfo) :
    (env.chargingEnabled = false →
      inverterCharge env fromD toD false = .status "Inverter Charge task ignored")
    ∧ (env.dischargingEnabled = false →
      inverterDischarge env fromD toD false = .status "Inverter Discharge task ignored")
    ∧ (env.chargingEnabled = false →
      inverterGridOnly env fromD toD false = .status "Inverter Grid Only task ignored")
    ∧ (env.chargingEnabled = false →
      inverterResetNow env false
        = .error "Charging logic is currently disabled, so no reset command sent") := by
  refine ⟨fun hc => ?_, fun hd => ?_, fun hc => ?_, fun hc => ?_⟩
  · unfold inverterCharge
    rw [hc]
    simp
  · unfold inverterDischarge
    rw [hd]
    simp
  · unfold inverterGridOnly
    rw [hc]
    simp
  · unfold inverterResetNow
    rw [hc]
    simp

/-- Witness for C5 (amended) on the two mixed-flag environments: charging
disabled with discharging enabled, and discharging disabled with charging
enabled. -/
theorem gating_policy_witness :
    inverterCharge envChargeOff ⟨0, 0, "10:00"⟩ ⟨0, 0, "10:30"⟩ false
        = .status "Inverter Charge task ignored"
    ∧ inverterGridOnly envChargeOff ⟨0, 0, "10:00"⟩ ⟨0, 0, "10:30"⟩ false
        = .status "Inverter Grid Only task ignored"
    ∧ inverterResetNow envChargeOff false
        = .error "Charging logic is currently disabled, so no reset command sent"
    ∧ inverterDischarge envDischargeOff ⟨0, 0, "10:00"⟩ ⟨0, 0, "10:30"⟩ false
        = .status "Inverter Discharge task ignored" :=
  ⟨(gating_policy envChargeOff ⟨0, 0, "10:00"⟩ ⟨0, 0, "10:30"⟩).1 rfl,
   (gating_policy envChargeOff ⟨0, 0, "10:00"⟩ ⟨0, 0, "10:30"⟩).2.2.1 rfl,
   (gating_policy envChargeOff ⟨0, 0, "10:00"⟩ ⟨0, 0, "10:30"⟩).2.2.2 rfl,
   (gating_policy envDischargeOff ⟨0, 0, "10:00"⟩ ⟨0, 0, "10:30"⟩).2.1 rfl⟩

/-- C5 counterexample: the reset operation's disabled-path result is an
error object carrying no status, contradicting the claim that all four
gates report a non-error status object. -/
theorem resetNow_disabled_error_counterexample :
    inverterResetNow envOff false
      = OpResult.error "Charging logic is currently disabled, so no reset command sent" :=
  rfl

/-- C8: when the caller's window crosses midnight (the `from` and `to`
instants resolve to different `dateIndex` values), the averaging operation
returns exactly the component-wise sum of two independent same-day
averages over the same stored day set: `from → "23:30"` plus
`"00:00" → to`. -/
theorem averageTimeIndices_split (du : DateUtil) (store : Store)
    (fromTimeIndex toTimeIndex : ℕ) (p1 p2 : Power)
    (hdiff : (du.atAbs fromTimeIndex).dateIndex ≠ (du.atAbs toTimeIndex).dateIndex)
    (h1 : averagePowerBetween du store (du.atAbs fromTimeIndex).timeText "23:30" = .ok p1)
    (h2 : averagePowerBetween du store "00:00" (du.atAbs toTimeIndex).timeText = .ok p2) :
    averagePowerBetweenTimeIndices du store fromTimeIndex toTimeIndex
      = .ok ⟨p1.load + p2.load, p1.pv + p2.pv⟩ := by
  unfold averagePowerBetweenTimeIndices
  rw [if_neg hdiff, h1, h2]

/-- Witness for C8 on a concrete store and date collaborator (from 22:00
on one day to 02:00 on the next). -/
theorem averageTimeIndices_split_witness :
    averagePowerBetweenTimeIndices duW storeW 5 15
      = .ok ⟨(0 : ℚ) + 0, (0 : ℚ) + 0⟩ :=
  averageTimeIndices_split duW storeW 5 15 ⟨0, 0⟩ ⟨0, 0⟩ (by decide)
    (by norm_num [averagePowerBetween, sumDays, getDataAt, duW, storeW, dayAt,
      lookupTree, snapW1, snapA])
    (by norm_num [averagePowerBetween, sumDays, getDataAt, duW, storeW, dayAt,
      lookupTree, snapW1, snapA])

theorem splitOnP_pieces_sep_free {α : Type} (p : α → Bool) :
    ∀ (xs : List α), ∀ y ∈ xs.splitOnP p, ∀ a ∈ y, ¬ p a := by
  intro xs
  induction xs with
  | nil =>
    intro y hy
    rw [List.splitOnP_nil] at hy
    simp only [List.mem_singleton] at hy
    subst hy
    intro a ha
    cases ha
  | cons x xs ih =>
    intro y hy
    rw [List.splitOnP_cons] at hy
    cases hx : p x with
    | true =>
      rw [hx] at hy
      simp only [if_true] at hy
      rcases List.mem_cons.mp hy with rfl | hm
      · intro a ha; cases ha
      · exact ih y hm
    | false =>
      rw [hx] at hy
      simp only [Bool.false_eq_true, if_false] at hy
      cases hsp : xs.splitOnP p with
      | nil => exact absurd hsp (List.splitOnP_ne_nil p xs)
      | cons hd tl =>
        rw [hsp, List.modifyHead_cons] at hy
        rcases List.mem_cons.mp hy with rfl | hm
        · intro a ha
          rcases List.mem_cons.mp ha with rfl | ha2
          · rw [hx]; exact Bool.false_ne_true
          · exact ih hd (by rw [hsp]; exact List.mem_cons_self hd tl) a ha2
        · exact ih y (by rw [hsp]; exact List.mem_cons_of_mem hd hm)

theorem not_mem_of_mem_splitOn {α : Type} [DecidableEq α] {x : α}
    {xs y : List α} (hy : y ∈ xs.splitOn x) : x ∉ y := by
  intro hx
  have := splitOnP_pieces_sep_free (· == x) xs y hy x hx
  simp at this

theorem sets6_length (fields : List (List Char)) (v0 v1 v2 v3 v6 v10 : List Char) :
    (sets6 fields v0 v1 v2 v3 v6 v10).length = fields.length := by
  simp [sets6]

theorem sets6_getElem (fields : List (List Char)) (v0 v1 v2 v3 v6 v10 : List Char)
    (i : ℕ) (h0 : i ≠ 0) (h1 : i ≠ 1) (h2 : i ≠ 2) (h3 : i ≠ 3) (h6 : i ≠ 6)
    (h10 : i ≠ 10) :
    (sets6 fields v0 v1 v2 v3 v6 v10)[i]? = fields[i]? := by
  unfold sets6
  rw [List.getElem?_set_ne (fun h => h10 h.symm), List.getElem?_set_ne (fun h => h6 h.symm),
    List.getElem?_set_ne (fun h => h3 h.symm), List.getElem?_set_ne (fun h => h2 h.symm),
    List.getElem?_set_ne (fun h => h1 h.symm), List.getElem?_set_ne (fun h => h0 h.symm)]

theorem sets6_mem (fields : List (List Char)) (v0 v1 v2 v3 v6 v10 : List Char)
    {y : List Char} (hy : y ∈ sets6 fields v0 v1 v2 v3 v6 v10) :
    y ∈ fields ∨ y = v0 ∨ y = v1 ∨ y = v2 ∨ y = v3 ∨ y = v6 ∨ y = v10 := by
  unfold sets6 at hy
  rcases List.mem_or_eq_of_mem_set hy with hy | rfl
  · rcases List.mem_or_eq_of_mem_set hy with hy | rfl
    · rcases List.mem_or_eq_of_mem_set hy with hy | rfl
      · rcases List.mem_or_eq_of_mem_set hy with hy | rfl
        · rcases List.mem_or_eq_of_mem_set hy with hy | rfl
          · rcases List.mem_or_eq_of_mem_set hy with hy | rfl
            · exact Or.inl hy
            · exact Or.inr (Or.inl rfl)
          · exact Or.inr (Or.inr (Or.inl rfl))
        · exact Or.inr (Or.inr (Or.inr (Or.inl rfl)))
      · exact Or.inr (Or.inr (Or.inr (Or.inr (Or.inl rfl))))
    · exact Or.inr (Or.inr (Or.inr (Or.inr (Or.inr (Or.inl rfl)))))
  · exact Or.inr (Or.inr (Or.inr (Or.inr (Or.inr (Or.inr rfl)))))

theorem sets6_splitOn (setting : List Char) (v0 v1 v2 v3 v6 v10 : List Char)
    (hv0 : ',' ∉ v0) (hv1 : ',' ∉ v1) (hv2 : ',' ∉ v2) (hv3 : ',' ∉ v3)
    (hv6 : ',' ∉ v6) (hv10 : ',' ∉ v10)
    (hlen : 11 ≤ (setting.splitOn ',').length) :
    (List.intercalate [','] (sets6 (setting.splitOn ',') v0 v1 v2 v3 v6 v10)).splitOn ','
      = sets6 (setting.splitOn ',') v0 v1 v2 v3 v6 v10 := by
  apply List.splitOn_intercalate
  · intro l hl
    rcases sets6_mem _ _ _ _ _ _ _ hl with hm | rfl | rfl | rfl | rfl | rfl | rfl
    · exact not_mem_of_mem_splitOn hm
    · exact hv0
    · exact hv1
    · exact hv2
    · exact hv3
    · exact hv6
    · exact hv10
  · intro he
    rw [← List.length_eq_zero] at he
    rw [sets6_length] at he
    omega

theorem framePreserved_of_sets6 (setting : List Char) (v0 v1 v2 v3 v6 v10 : List Char)
    (hv0 : ',' ∉ v0) (hv1 : ',' ∉ v1) (hv2 : ',' ∉ v2) (hv3 : ',' ∉ v3)
    (hv6 : ',' ∉ v6) (hv10 : ',' ∉ v10)
    (hlen : 11 ≤ (setting.splitOn ',').length) :
    framePreserved setting
      (List.intercalate [','] (sets6 (setting.splitOn ',') v0 v1 v2 v3 v6 v10)) := by
  have hs := sets6_splitOn setting v0 v1 v2 v3 v6 v10 hv0 hv1 hv2 hv3 hv6 hv10 hlen
  constructor
  · rw [hs, sets6_length]
  · intro i h0 h1 h2 h3 h6 h10
    rw [hs, sets6_getElem _ _ _ _ _ _ _ i h0 h1 h2 h3 h6 h10]

theorem window_no_comma {fromT toT : List Char} (hf : ',' ∉ fromT) (ht : ',' ∉ toT) :
    ',' ∉ fromT ++ ['-'] ++ toT := by
  intro hm
  rcases List.mem_append.mp hm with hm1 | hm2
  · rcases List.mem_append.mp hm1 with hm3 | hm4
    · exact hf hm3
    · simp at hm4
  · exact ht hm2

/-- C10: each of the four legacy settings-string rewrites returns a string
with the same number of comma-separated fields as its input (of at least
11 fields), in which only positions 0, 1, 2, 3, 6 and 10 may differ; every
other position (4, 5, 7, 8, 9 and everything from 11 on) is returned
unchanged.  The configured currents and the time texts are comma-free. -/
theorem timeString_frame (chargeCur dischargeCur setting fromT toT : List Char)
    (hcc : ',' ∉ chargeCur) (hdc : ',' ∉ dischargeCur)
    (hf : ',' ∉ fromT) (ht : ',' ∉ toT)
    (hlen : 11 ≤ (setting.splitOn ',').length) :
    framePreserved setting (chargeTimeString chargeCur setting fromT toT)
    ∧ framePreserved setting (dischargeTimeString dischargeCur setting fromT toT)
    ∧ framePreserved setting (gridOnlyTimeString setting fromT toT)
    ∧ framePreserved setting (resetTimeString setting) := by
  have hconst : ',' ∉ "00:00-00:00".toList := by decide
  have hzero : ',' ∉ ['0'] := by decide
  refine ⟨?_, ?_, ?_, ?_⟩
  · exact framePreserved_of_sets6 setting chargeCur ['0'] (fromT ++ ['-'] ++ toT)
      "00:00-00:00".toList "00:00-00:00".toList "00:00-00:00".toList
      hcc hzero (window_no_comma hf ht) hconst hconst hconst hlen
  · exact framePreserved_of_sets6 setting ['0'] dischargeCur "00:00-00:00".toList
      (fromT ++ ['-'] ++ toT) "00:00-00:00".toList "00:00-00:00".toList
      hzero hdc hconst (window_no_comma hf ht) hconst hconst hlen
  · exact framePreserved_of_sets6 setting ['0'] ['0'] "00:00-00:00".toList
      (fromT ++ ['-'] ++ toT) "00:00-00:00".toList "00:00-00:00".toList
      hzero hzero hconst (window_no_comma hf ht) hconst hconst hlen
  · exact framePreserved_of_sets6 setting ['0'] ['0'] "00:00-00:00".toList
      "00:00-00:00".toList "00:00-00:00".toList "00:00-00:00".toList
      hzero hzero hconst hconst hconst hconst hlen

/-- Witness for C10 on a concrete 11-field settings string, checking one
untouched position. -/
theorem timeString_frame_witness :
    framePreserved "50,50,00:00-00:00,00:00-00:00,a,b,00:00-00:00,c,d,e,00:00-00:00".toList
      (chargeTimeString ['6', '0']
        "50,50,00:00-00:00,00:00-00:00,a,b,00:00-00:00,c,d,e,00:00-00:00".toList
        "01:00".toList "01:30".toList)
    ∧ ((chargeTimeString ['6', '0']
        "50,50,00:00-00:00,00:00-00:00,a,b,00:00-00:00,c,d,e,00:00-00:00".toList
        "01:00".toList "01:30".toList).splitOn ',')[4]?
      = (("50,50,00:00-00:00,00:00-00:00,a,b,00:00-00:00,c,d,e,00:00-00:00".toList).splitOn ',')[4]? := by
  have h := timeString_frame ['6', '0'] ['5', '0']
    "50,50,00:00-00:00,00:00-00:00,a,b,00:00-00:00,c,d,e,00:00-00:00".toList
    "01:00".toList "01:30".toList (by decide) (by decide) (by decide) (by decide) (by decide)
  exact ⟨h.1, h.1.2 4 (by decide) (by decide) (by decide) (by decide) (by decide) (by decide)⟩

theorem add32_lt (a b : ℕ) : add32 a b < 4294967296 :=
  Nat.mod_lt _ (by norm_num)

theorem md5ProcessBlock_lt (st : ℕ × ℕ × ℕ × ℕ) (block : List ℕ) :
    (md5ProcessBlock st block).1 < 4294967296
    ∧ (md5ProcessBlock st block).2.1 < 4294967296
    ∧ (md5ProcessBlock st block).2.2.1 < 4294967296
    ∧ (md5ProcessBlock st block).2.2.2 < 4294967296 := by
  unfold md5ProcessBlock
  exact ⟨add32_lt _ _, add32_lt _ _, add32_lt _ _, add32_lt _ _⟩

theorem foldl_md5_lt (blocks : List (List ℕ)) :
    ∀ st : ℕ × ℕ × ℕ × ℕ,
    st.1 < 4294967296 → st.2.1 < 4294967296 → st.2.2.1 < 4294967296 →
    st.2.2.2 < 4294967296 →
    (blocks.foldl md5ProcessBlock st).1 < 4294967296
    ∧ (blocks.foldl md5ProcessBlock st).2.1 < 4294967296
    ∧ (blocks.foldl md5ProcessBlock st).2.2.1 < 4294967296
    ∧ (blocks.foldl md5ProcessBlock st).2.2.2 < 4294967296 := by
  induction blocks with
  | nil => exact fun st h1 h2 h3 h4 => ⟨h1, h2, h3, h4⟩
  | cons b bs ih =>
    intro st _ _ _ _
    rw [List.foldl_cons]
    obtain ⟨g1, g2, g3, g4⟩ := md5ProcessBlock_lt st b
    exact ih _ g1 g2 g3 g4

theorem md5Nat_lt (msg : List ℕ) :
    md5Nat msg < 340282366920938463463374607431768211456 := by
  unfold md5Nat md5State
  obtain ⟨h1, h2, h3, h4⟩ := foldl_md5_lt (chunksOfSucc 63 (md5Pad msg))
    (0x67452301, 0xefcdab89, 0x98badcfe, 0x10325476)
    (by norm_num) (by norm_num) (by norm_num) (by norm_num)
  omega

/-- C9 (amended): the signing pipeline is a pure deterministic function of
its inputs (a Lean function by construction; identical inputs give the
identical string-to-sign and Authorization value): the string-to-sign is
METHOD, base64 MD5 of the canonical body, CONTENT-TYPE, DATE and URL-PATH
joined by line feeds, and the Authorization value is
`"API " + accessKey + ":" +` the base64 HMAC-SHA1 of that string under the
secret.  Changing the body, however, need not change the signature: the
content hash has only 2^128 values (see the counterexample). -/
theorem signing_pipeline (key secret body url method contentType date : String) :
    (stringToSign body url method contentType date).1
      = method ++ "\n" ++ md5 body ++ "\n" ++ contentType ++ "\n" ++ date
        ++ "\n" ++ url
    ∧ (stringToSign body url method contentType date).2 = md5 body
    ∧ signature (stringToSign body url method contentType date).1 secret
      = base64Encode (hmacSha1 (strBytes secret)
          (strBytes (method ++ "\n" ++ md5 body ++ "\n" ++ contentType ++ "\n"
            ++ date ++ "\n" ++ url)))
    ∧ apiAuth key secret body url method date
      = "API " ++ key ++ ":"
        ++ signature (stringToSign body url method "application/json" date).1 secret :=
  ⟨rfl, rfl, rfl, rfl⟩

/-- C9 counterexample (negation of the claim's final clause): it is not
the case that changing any one input always changes the signature — two
distinct bodies must exist whose Authorization values coincide, because
the signature depends on the body only through its 128-bit MD5 digest and
there are infinitely many bodies. -/
theorem signing_not_injective :
    ¬ ∀ (b1 b2 url method date key secret : String), b1 ≠ b2 →
        apiAuth key secret b1 url method date
          ≠ apiAuth key secret b2 url method date := by
  intro hinj
  obtain ⟨x, y, hxy, hfeq⟩ := Finite.exists_ne_map_eq_of_infinite
    (fun s : String =>
      (⟨md5Nat (strBytes s), md5Nat_lt (strBytes s)⟩
        : Fin 340282366920938463463374607431768211456))
  have hnat : md5Nat (strBytes x) = md5Nat (strBytes y) :=
    congrArg Fin.val hfeq
  have hb64 : md5 x = md5 y := by
    unfold md5
    rw [hnat]
  have hauth : apiAuth "k" "s" x "/v2/api/control" "POST"
        "Mon, 01 Jan 2024 00:00:00 GMT"
      = apiAuth "k" "s" y "/v2/api/control" "POST"
        "Mon, 01 Jan 2024 00:00:00 GMT" := by
    unfold apiAuth signature stringToSign
    rw [hb64]
  exact hinj x y "/v2/api/control" "POST" "Mon, 01 Jan 2024 00:00:00 GMT"
    "k" "s" hxy hauth

end Agility
